import Mathlib

/-!
Simple GPIO driver: register-mediated pin-state engine.

A shallow embedding of `src/final_gpio_test/gpio_driver.c` (and the request
record of `src/gpio_driver.h`).  The device is a record holding the mapped
register window, the hardware's response to a 32-bit store, and an
instrumentation trace in which every lock operation, every `ioread32`, every
`iowrite32` and every `pr_info` of the interrupt handler is appended in
program order.  Driver functions are state-passing functions on that record.
-/

namespace GpioDriver

/-! ## Constants -/

/-- Number of pins: `#define NUM_GPIOS 8`. -/
def NUM_GPIOS : Nat := 8

/-- Data bit mask: `#define GPIO_DATA_BIT (1 << 0)`. -/
def GPIO_DATA_BIT : Nat := 1 <<< 0

/-- Direction bit mask: `#define GPIO_DIR_BIT (1 << 1)`. -/
def GPIO_DIR_BIT : Nat := 1 <<< 1

/-- Interrupt status bit mask: `#define GPIO_INT_STATUS_BIT (1 << 8)`. -/
def GPIO_INT_STATUS_BIT : Nat := 1 <<< 8

/-- Interrupt enable bit mask: `#define GPIO_INT_ENABLE_BIT (1 << 9)`. -/
def GPIO_INT_ENABLE_BIT : Nat := 1 <<< 9

/-- Register offset table: `static const u32 gpio_offsets[NUM_GPIOS]`. -/
def gpio_offsets : List Nat := [0x00, 0x04, 0x08, 0x0c, 0x10, 0x14, 0x1c, 0x20]

/-- Kernel errno `EPERM` (errno-base.h; the header is not part of the repository). -/
def EPERM : Int := 1

/-- Kernel errno `EFAULT` (errno-base.h). -/
def EFAULT : Int := 14

/-- Kernel errno `EINVAL` (errno-base.h). -/
def EINVAL : Int := 22

/-- Kernel errno `ENOTTY` (errno-base.h). -/
def ENOTTY : Int := 25

/-- Handler result `IRQ_NONE` (irqreturn.h): the interrupt was not from this device. -/
def IRQ_NONE : Int := 0

/-- Handler result `IRQ_HANDLED` (irqreturn.h): the interrupt was serviced. -/
def IRQ_HANDLED : Int := 1

/-- Bitwise complement of a mask as it lands in a `u32` operand (`~mask`). -/
def not32 (mask : Nat) : Nat := (2 ^ 32 - 1 - mask) % 2 ^ 32

/-! ## Device state and instrumentation -/

/-- One observable action of the driver, in program order. -/
inductive Event where
  | acquire : Event
  | release : Event
  | read (off : Nat) : Event
  | write (off : Nat) (val : Nat) : Event
  | log (pin : Int) (value : Int) : Event
  deriving DecidableEq, Repr

/-- The device: `mem` is the register window indexed by byte offset from
`base_addr`, `store old w` is the word a register holds after the word `w` is
stored to it while it held `old`, and `trace` is the instrumentation trace. -/
structure Dev where
  mem : Nat → Nat
  store : Nat → Nat → Nat
  trace : List Event

/-- Append one event to the trace. -/
def emit (e : Event) (s : Dev) : Dev :=
  { s with trace := s.trace ++ [e] }

/-- Kernel `spin_lock_irqsave(&gpio_dev->lock, flags)`. -/
def spin_lock_irqsave (s : Dev) : Dev := emit Event.acquire s

/-- Kernel `spin_unlock_irqrestore(&gpio_dev->lock, flags)`. -/
def spin_unlock_irqrestore (s : Dev) : Dev := emit Event.release s

/-- Kernel `ioread32(base_addr + off)`: the 32-bit word of the register. -/
def ioread32 (off : Nat) (s : Dev) : Nat × Dev :=
  (s.mem off % 2 ^ 32, emit (Event.read off) s)

/-- Kernel `iowrite32(value, base_addr + off)`: the register reacts to the store
as the hardware dictates; no other register changes. -/
def iowrite32 (value : Nat) (off : Nat) (s : Dev) : Dev :=
  emit (Event.write off value)
    { s with mem := Function.update s.mem off (s.store (s.mem off) value) }

/-- The handler's `pr_info("GPIO%d: Interrupt detected (value=%d)\n", pin, value)`. -/
def pr_info (pin : Int) (value : Int) (s : Dev) : Dev := emit (Event.log pin value) s

/-! ## Hardware models -/

/-- The register of the data model: bit 8 is write-one-to-clear (storing 1 clears
it, storing 0 leaves it as it was), every other bit is taken from the stored word. -/
def w1tcStore : Nat → Nat → Nat := fun old w =>
  (w &&& not32 GPIO_INT_STATUS_BIT) |||
    (if w &&& GPIO_INT_STATUS_BIT ≠ 0 then 0 else old &&& GPIO_INT_STATUS_BIT)

/-! ## Register access layer -/

/-- Source `gpio_read_reg`. -/
def gpio_read_reg (gpio_num : Int) (s : Dev) : Nat × Dev :=
  if gpio_num < 0 ∨ gpio_num ≥ (NUM_GPIOS : Int) then (0, s)
  else ioread32 (gpio_offsets.getD gpio_num.toNat 0) s

/-- Source `gpio_write_reg`. -/
def gpio_write_reg (gpio_num : Int) (value : Nat) (s : Dev) : Dev :=
  if gpio_num < 0 ∨ gpio_num ≥ (NUM_GPIOS : Int) then s
  else iowrite32 value (gpio_offsets.getD gpio_num.toNat 0) s

/-! ## Pin state engine -/

/-- Source `gpio_set_direction`; returns the status and the device afterwards. -/
def gpio_set_direction (gpio_num : Int) (direction : Int) (s : Dev) : Int × Dev :=
  if gpio_num < 0 ∨ gpio_num ≥ (NUM_GPIOS : Int) then (-EINVAL, s)
  else
    let s1 := spin_lock_irqsave s
    let r := gpio_read_reg gpio_num s1
    let reg_val := if direction ≠ 0 then r.1 ||| GPIO_DIR_BIT else r.1 &&& not32 GPIO_DIR_BIT
    let s2 := gpio_write_reg gpio_num reg_val r.2
    (0, spin_unlock_irqrestore s2)

/-- Source `gpio_read_pin`; `value` is what `*value` holds on entry, the middle
component of the result is what it holds on return. -/
def gpio_read_pin (gpio_num : Int) (value : Int) (s : Dev) : Int × Int × Dev :=
  if gpio_num < 0 ∨ gpio_num ≥ (NUM_GPIOS : Int) then (-EINVAL, value, s)
  else
    let s1 := spin_lock_irqsave s
    let r := gpio_read_reg gpio_num s1
    let value1 : Int := if r.1 &&& GPIO_DATA_BIT ≠ 0 then 1 else 0
    (0, value1, spin_unlock_irqrestore r.2)

/-- Source `gpio_write_pin`. -/
def gpio_write_pin (gpio_num : Int) (value : Int) (s : Dev) : Int × Dev :=
  if gpio_num < 0 ∨ gpio_num ≥ (NUM_GPIOS : Int) then (-EINVAL, s)
  else
    let s1 := spin_lock_irqsave s
    let r := gpio_read_reg gpio_num s1
    if r.1 &&& GPIO_DIR_BIT = 0 then
      (-EPERM, spin_unlock_irqrestore r.2)
    else
      let reg_val := if value ≠ 0 then r.1 ||| GPIO_DATA_BIT else r.1 &&& not32 GPIO_DATA_BIT
      let s2 := gpio_write_reg gpio_num reg_val r.2
      (0, spin_unlock_irqrestore s2)

/-- Source `gpio_set_interrupt`. -/
def gpio_set_interrupt (gpio_num : Int) (enable : Int) (s : Dev) : Int × Dev :=
  if gpio_num < 0 ∨ gpio_num ≥ (NUM_GPIOS : Int) then (-EINVAL, s)
  else
    let s1 := spin_lock_irqsave s
    let r := gpio_read_reg gpio_num s1
    let reg_val :=
      if enable ≠ 0 then r.1 ||| GPIO_INT_ENABLE_BIT else r.1 &&& not32 GPIO_INT_ENABLE_BIT
    let s2 := gpio_write_reg gpio_num reg_val r.2
    (0, spin_unlock_irqrestore s2)

/-- Source `gpio_read_int_status`; `status` is what `*status` holds on entry. -/
def gpio_read_int_status (gpio_num : Int) (status : Int) (s : Dev) : Int × Int × Dev :=
  if gpio_num < 0 ∨ gpio_num ≥ (NUM_GPIOS : Int) then (-EINVAL, status, s)
  else
    let s1 := spin_lock_irqsave s
    let r := gpio_read_reg gpio_num s1
    let status1 : Int := if r.1 &&& GPIO_INT_STATUS_BIT ≠ 0 then 1 else 0
    (0, status1, spin_unlock_irqrestore r.2)

/-- Source `gpio_clear_int_status`. -/
def gpio_clear_int_status (gpio_num : Int) (s : Dev) : Int × Dev :=
  if gpio_num < 0 ∨ gpio_num ≥ (NUM_GPIOS : Int) then (-EINVAL, s)
  else
    let s1 := spin_lock_irqsave s
    let r := gpio_read_reg gpio_num s1
    let s2 :=
      if r.1 &&& GPIO_INT_STATUS_BIT ≠ 0 then gpio_write_reg gpio_num GPIO_INT_STATUS_BIT r.2
      else r.2
    (0, spin_unlock_irqrestore s2)

/-! ## Interrupt dispatcher -/

/-- One iteration of the `for` loop of `gpio_irq_handler`: the state carried
round the loop is `handled` and the device. -/
def irq_body (i : Int) (acc : Int × Dev) : Int × Dev :=
  let r := gpio_read_reg i acc.2
  if r.1 &&& GPIO_INT_STATUS_BIT ≠ 0 then
    let s1 := pr_info (i + 1) (if r.1 &&& GPIO_DATA_BIT ≠ 0 then 1 else 0) r.2
    let c := gpio_clear_int_status i s1
    (1, c.2)
  else (acc.1, r.2)

/-- Source `gpio_irq_handler`: `for (i = 0; i < NUM_GPIOS; i++)` over the body,
starting from `handled = 0`. -/
def gpio_irq_handler (s : Dev) : Int × Dev :=
  let r := (List.range NUM_GPIOS).foldl (fun acc i => irq_body (i : Int) acc) (0, s)
  (if r.1 ≠ 0 then IRQ_HANDLED else IRQ_NONE, r.2)

/-! ## Command interface -/

/-- Request record: `struct gpio_config` of `gpio_driver.h`. -/
structure gpio_config where
  gpio_num : Int
  value : Int
  deriving DecidableEq, Repr

/-- The user-space record that the `arg` pointer of an ioctl refers to, with
the access rights of the page it lives in. -/
structure UserBuf where
  readable : Bool
  writable : Bool
  data : gpio_config
  deriving DecidableEq, Repr

/-- Kernel `copy_from_user(&config, arg, sizeof(config))`: `none` when the call
reports bytes left uncopied, otherwise the record read. -/
def copy_from_user (arg : UserBuf) : Option gpio_config :=
  if arg.readable then some arg.data else none

/-- Kernel `copy_to_user(arg, &config, sizeof(config))`: `none` when the call
reports bytes left uncopied, otherwise the user record afterwards. -/
def copy_to_user (arg : UserBuf) (config : gpio_config) : Option UserBuf :=
  if arg.writable then some { arg with data := config } else none

/-- The six command codes of `gpio_driver.h`.  They are built there with the
kernel macros `_IOW` and `_IOWR`, which are not part of the repository, so the
numeric values are a parameter of `gpio_ioctl`. -/
structure IoctlCodes where
  GPIO_SET_DIRECTION : Nat
  GPIO_READ_PIN : Nat
  GPIO_WRITE_PIN : Nat
  GPIO_SET_INTERRUPT : Nat
  GPIO_READ_INT_STATUS : Nat
  GPIO_CLEAR_INT_STATUS : Nat

/-- The six codes are pairwise different, as the `case` labels of one `switch`
have to be. -/
def IoctlCodes.Distinct (c : IoctlCodes) : Prop :=
  [c.GPIO_SET_DIRECTION, c.GPIO_READ_PIN, c.GPIO_WRITE_PIN, c.GPIO_SET_INTERRUPT,
    c.GPIO_READ_INT_STATUS, c.GPIO_CLEAR_INT_STATUS].Nodup

/-- The values the codes take under the generic kernel encoding
`dir << 30 | size << 16 | type << 8 | nr` with `type = 'g'` and `size = 8`. -/
def genericCodes : IoctlCodes :=
  { GPIO_SET_DIRECTION := 0x40086701
    GPIO_READ_PIN := 0xC0086702
    GPIO_WRITE_PIN := 0x40086703
    GPIO_SET_INTERRUPT := 0x40086704
    GPIO_READ_INT_STATUS := 0xC0086705
    GPIO_CLEAR_INT_STATUS := 0x40086706 }

/-- Source `gpio_ioctl`: the status returned, the user record afterwards and the
device afterwards. -/
def gpio_ioctl (c : IoctlCodes) (cmd : Nat) (arg : UserBuf) (s : Dev) : Int × UserBuf × Dev :=
  if cmd = c.GPIO_SET_DIRECTION then
    match copy_from_user arg with
    | none => (-EFAULT, arg, s)
    | some config =>
      let r := gpio_set_direction config.gpio_num config.value s
      (r.1, arg, r.2)
  else if cmd = c.GPIO_READ_PIN then
    match copy_from_user arg with
    | none => (-EFAULT, arg, s)
    | some config =>
      let r := gpio_read_pin config.gpio_num config.value s
      if r.1 = 0 then
        match copy_to_user arg { config with value := r.2.1 } with
        | none => (-EFAULT, arg, r.2.2)
        | some arg1 => (r.1, arg1, r.2.2)
      else (r.1, arg, r.2.2)
  else if cmd = c.GPIO_WRITE_PIN then
    match copy_from_user arg with
    | none => (-EFAULT, arg, s)
    | some config =>
      let r := gpio_write_pin config.gpio_num config.value s
      (r.1, arg, r.2)
  else if cmd = c.GPIO_SET_INTERRUPT then
    match copy_from_user arg with
    | none => (-EFAULT, arg, s)
    | some config =>
      let r := gpio_set_interrupt config.gpio_num config.value s
      (r.1, arg, r.2)
  else if cmd = c.GPIO_READ_INT_STATUS then
    match copy_from_user arg with
    | none => (-EFAULT, arg, s)
    | some config =>
      let r := gpio_read_int_status config.gpio_num config.value s
      if r.1 = 0 then
        match copy_to_user arg { config with value := r.2.1 } with
        | none => (-EFAULT, arg, r.2.2)
        | some arg1 => (r.1, arg1, r.2.2)
      else (r.1, arg, r.2.2)
  else if cmd = c.GPIO_CLEAR_INT_STATUS then
    match copy_from_user arg with
    | none => (-EFAULT, arg, s)
    | some config =>
      let r := gpio_clear_int_status config.gpio_num s
      (r.1, arg, r.2)
  else (-ENOTTY, arg, s)

/-! ## Vocabulary of the properties -/

/-- Byte offset of the register of pin `i`. -/
def pin_off (i : Int) : Nat := gpio_offsets.getD i.toNat 0

/-- The 32-bit register word of pin `i` in the register window `mem`. -/
def pin_word (mem : Nat → Nat) (i : Int) : Nat := mem (pin_off i) % 2 ^ 32

/-- A bit as the integer 0 or 1. -/
def bit01 (b : Bool) : Int := if b then 1 else 0

/-- A register reads back bit `k` exactly as it was last stored to it. -/
def ReadsBack (store : Nat → Nat → Nat) (k : Nat) : Prop :=
  ∀ old w, (store old w).testBit k = w.testBit k

/-- Bit `k` is write-one-to-clear: storing a word with the bit set leaves it clear. -/
def WriteOneToClear (store : Nat → Nat → Nat) (k : Nat) : Prop :=
  ∀ old w, w.testBit k = true → (store old w).testBit k = false

/-- The register stores of a trace, as pairs of offset and word, in order. -/
def reg_writes : List Event → List (Nat × Nat)
  | [] => []
  | Event.write off v :: t => (off, v) :: reg_writes t
  | _ :: t => reg_writes t

/-- The events the interrupt handler reported in a trace, in order. -/
def irq_events : List Event → List (Int × Int)
  | [] => []
  | Event.log pin v :: t => (pin, v) :: irq_events t
  | _ :: t => irq_events t

/-- Lock discipline of a trace, started with the lock `held` or not: the lock
is never acquired while held nor released while free, every register load and
store happens while it is held, and it is free at the end. -/
def lock_ok : Bool → List Event → Bool
  | held, [] => !held
  | held, Event.acquire :: t => !held && lock_ok true t
  | held, Event.release :: t => held && lock_ok false t
  | held, Event.read _ :: t => held && lock_ok held t
  | held, Event.write _ _ :: t => held && lock_ok held t
  | held, Event.log _ _ :: t => lock_ok held t

/-- The pins that are pending in `s`, in ascending order, each with the event
the handler reports for it: the pin number `i + 1` and the data bit. -/
def pending_events (s : Dev) : List (Int × Int) :=
  (List.range NUM_GPIOS).filterMap fun (i : Nat) =>
    if (pin_word s.mem (i : Int)).testBit 8 then
      some ((i : Int) + 1, bit01 ((pin_word s.mem (i : Int)).testBit 0))
    else none

/-! ## Sample devices -/

/-- A device with every register zero and an empty trace. -/
def idleDev : Dev := { mem := fun _ => 0, store := w1tcStore, trace := [] }

/-- A device where pin 2 is an input with a pending, enabled interrupt and data 1,
pin 3 is an output driving 0, and every other register is zero. -/
def sampleDev : Dev :=
  { mem := fun off => if off = 0x08 then 0x301 else if off = 0x0c then 0x2 else 0
    store := w1tcStore
    trace := [] }

/-- A device where pin 5 is an output driving 1 with a pending, enabled
interrupt (word 0x303) and every other register is zero. -/
def outputPendingDev : Dev :=
  { mem := fun off => if off = 0x14 then 0x303 else 0
    store := w1tcStore
    trace := [] }

/-- A user record `{gpio_num = 0, value = 0}` in a page that can be read and written. -/
def sampleArg : UserBuf :=
  { readable := true, writable := true, data := { gpio_num := 0, value := 0 } }

/-- The same record in a page mapped read-only. -/
def readOnlyArg : UserBuf :=
  { readable := true, writable := false, data := { gpio_num := 0, value := 0 } }

/-! ## Bit-level lemmas -/

theorem land_bit_ne_zero (w k : Nat) : w &&& (1 <<< k) ≠ 0 ↔ w.testBit k = true := by
  rw [Nat.one_shiftLeft, Nat.and_two_pow]
  cases h : w.testBit k <;> simp

theorem land_bit_eq_zero (w k : Nat) : w &&& (1 <<< k) = 0 ↔ w.testBit k = false := by
  rw [Nat.one_shiftLeft, Nat.and_two_pow]
  cases h : w.testBit k <;> simp

theorem testBit_set_bit (w k j : Nat) :
    (w ||| (1 <<< k)).testBit j = (w.testBit j || decide (k = j)) := by
  rw [Nat.one_shiftLeft, Nat.testBit_or, Nat.testBit_two_pow]

theorem testBit_not32_bit (k j : Nat) (hk : k < 32) :
    (not32 (1 <<< k)).testBit j = (decide (j < 32) && !decide (k = j)) := by
  have h : (2:Nat) ^ k < 2 ^ 32 := Nat.pow_lt_pow_right (by decide) hk
  have e : not32 (1 <<< k) = 2 ^ 32 - (2 ^ k + 1) := by
    unfold not32
    rw [Nat.one_shiftLeft]
    generalize (2:Nat) ^ k = p at h
    omega
  rw [e, Nat.testBit_two_pow_sub_succ h, Nat.testBit_two_pow]

theorem testBit_clear_bit (w k j : Nat) (hw : w < 2 ^ 32) (hk : k < 32) :
    (w &&& not32 (1 <<< k)).testBit j = (w.testBit j && !decide (k = j)) := by
  rw [Nat.testBit_and, testBit_not32_bit k j hk]
  by_cases hj : j < 32
  · simp [hj]
  · have : w.testBit j = false :=
      Nat.testBit_lt_two_pow (lt_of_lt_of_le hw (Nat.pow_le_pow_right (by decide) (by omega)))
    simp [this]

theorem word_lt (m : Nat) : m % 2 ^ 32 < 2 ^ 32 := Nat.mod_lt _ (by decide)

theorem testBit_word (m k : Nat) (hk : k < 32) : (m % 2 ^ 32).testBit k = m.testBit k := by
  rw [Nat.testBit_mod_two_pow]
  simp [hk]

/-- The model register of the data model reads back bits 0, 1 and 9 as stored. -/
theorem w1tcStore_readsBack (k : Nat) (hk : k < 32) (h8 : k ≠ 8) : ReadsBack w1tcStore k := by
  intro old w
  have h8' : ¬ (8 = k) := fun h => h8 h.symm
  unfold w1tcStore GPIO_INT_STATUS_BIT
  split
  · rw [Nat.testBit_or, Nat.testBit_and, testBit_not32_bit 8 k (by decide)]
    simp [hk, h8']
  · rw [Nat.testBit_or, Nat.testBit_and, Nat.testBit_and, testBit_not32_bit 8 k (by decide),
      Nat.one_shiftLeft, Nat.testBit_two_pow]
    simp [hk, h8']

/-- Bit 8 of the model register is write-one-to-clear. -/
theorem w1tcStore_w1tc : WriteOneToClear w1tcStore 8 := by
  intro old w hw
  have h := (land_bit_ne_zero w 8).2 hw
  unfold w1tcStore GPIO_INT_STATUS_BIT
  rw [if_pos h, Nat.testBit_or, Nat.testBit_and, testBit_not32_bit 8 8 (by decide)]
  simp


/-! ## Closed forms of the pin operations -/

theorem valid_pin_guard (i : Int) (hi : 0 ≤ i ∧ i < 8) :
    ¬ (i < 0 ∨ i ≥ (NUM_GPIOS : Int)) := by
  unfold NUM_GPIOS
  omega

theorem invalid_pin_guard (p : Int) (hp : p < 0 ∨ p ≥ 8) :
    p < 0 ∨ p ≥ (NUM_GPIOS : Int) := by
  unfold NUM_GPIOS
  omega

theorem gpio_read_reg_valid (i : Int) (s : Dev) (hi : 0 ≤ i ∧ i < 8) :
    gpio_read_reg i s = (pin_word s.mem i, emit (Event.read (pin_off i)) s) := by
  simp only [gpio_read_reg, if_neg (valid_pin_guard i hi), ioread32, pin_word, pin_off]

theorem gpio_write_reg_valid (i : Int) (w : Nat) (s : Dev) (hi : 0 ≤ i ∧ i < 8) :
    gpio_write_reg i w s =
      { mem := Function.update s.mem (pin_off i) (s.store (s.mem (pin_off i)) w)
        store := s.store
        trace := s.trace ++ [Event.write (pin_off i) w] } := by
  simp only [gpio_write_reg, if_neg (valid_pin_guard i hi), iowrite32, emit, pin_off]

theorem gpio_set_direction_valid (i d : Int) (s : Dev) (hi : 0 ≤ i ∧ i < 8) :
    gpio_set_direction i d s =
      (0, { mem := Function.update s.mem (pin_off i) (s.store (s.mem (pin_off i))
              (if d ≠ 0 then pin_word s.mem i ||| GPIO_DIR_BIT
               else pin_word s.mem i &&& not32 GPIO_DIR_BIT))
            store := s.store
            trace := s.trace ++ [Event.acquire, Event.read (pin_off i),
              Event.write (pin_off i)
                (if d ≠ 0 then pin_word s.mem i ||| GPIO_DIR_BIT
                 else pin_word s.mem i &&& not32 GPIO_DIR_BIT),
              Event.release] }) := by
  simp [gpio_set_direction, valid_pin_guard i hi, gpio_read_reg_valid i _ hi,
    gpio_write_reg_valid i _ _ hi, spin_lock_irqsave, spin_unlock_irqrestore, emit]

theorem gpio_set_interrupt_valid (i e : Int) (s : Dev) (hi : 0 ≤ i ∧ i < 8) :
    gpio_set_interrupt i e s =
      (0, { mem := Function.update s.mem (pin_off i) (s.store (s.mem (pin_off i))
              (if e ≠ 0 then pin_word s.mem i ||| GPIO_INT_ENABLE_BIT
               else pin_word s.mem i &&& not32 GPIO_INT_ENABLE_BIT))
            store := s.store
            trace := s.trace ++ [Event.acquire, Event.read (pin_off i),
              Event.write (pin_off i)
                (if e ≠ 0 then pin_word s.mem i ||| GPIO_INT_ENABLE_BIT
                 else pin_word s.mem i &&& not32 GPIO_INT_ENABLE_BIT),
              Event.release] }) := by
  simp [gpio_set_interrupt, valid_pin_guard i hi, gpio_read_reg_valid i _ hi,
    gpio_write_reg_valid i _ _ hi, spin_lock_irqsave, spin_unlock_irqrestore, emit]

theorem gpio_write_pin_input (i v : Int) (s : Dev) (hi : 0 ≤ i ∧ i < 8)
    (hdir : (pin_word s.mem i).testBit 1 = false) :
    gpio_write_pin i v s =
      (-EPERM, { s with trace := s.trace ++
        [Event.acquire, Event.read (pin_off i), Event.release] }) := by
  have h : pin_word s.mem i &&& GPIO_DIR_BIT = 0 := (land_bit_eq_zero _ 1).2 hdir
  simp [gpio_write_pin, valid_pin_guard i hi, gpio_read_reg_valid i _ hi,
    spin_lock_irqsave, spin_unlock_irqrestore, emit, h]

theorem gpio_write_pin_output (i v : Int) (s : Dev) (hi : 0 ≤ i ∧ i < 8)
    (hdir : (pin_word s.mem i).testBit 1 = true) :
    gpio_write_pin i v s =
      (0, { mem := Function.update s.mem (pin_off i) (s.store (s.mem (pin_off i))
              (if v ≠ 0 then pin_word s.mem i ||| GPIO_DATA_BIT
               else pin_word s.mem i &&& not32 GPIO_DATA_BIT))
            store := s.store
            trace := s.trace ++ [Event.acquire, Event.read (pin_off i),
              Event.write (pin_off i)
                (if v ≠ 0 then pin_word s.mem i ||| GPIO_DATA_BIT
                 else pin_word s.mem i &&& not32 GPIO_DATA_BIT),
              Event.release] }) := by
  have h : pin_word s.mem i &&& GPIO_DIR_BIT ≠ 0 := (land_bit_ne_zero _ 1).2 hdir
  simp [gpio_write_pin, valid_pin_guard i hi, gpio_read_reg_valid i _ hi,
    gpio_write_reg_valid i _ _ hi, spin_lock_irqsave, spin_unlock_irqrestore, emit, h]

theorem gpio_read_pin_valid (i v0 : Int) (s : Dev) (hi : 0 ≤ i ∧ i < 8) :
    gpio_read_pin i v0 s =
      (0, bit01 ((pin_word s.mem i).testBit 0), { s with trace := s.trace ++
        [Event.acquire, Event.read (pin_off i), Event.release] }) := by
  have h : (pin_word s.mem i &&& GPIO_DATA_BIT ≠ 0) ↔ (pin_word s.mem i).testBit 0 = true :=
    land_bit_ne_zero _ 0
  simp only [gpio_read_pin, valid_pin_guard i hi, gpio_read_reg_valid i _ hi,
    spin_lock_irqsave, spin_unlock_irqrestore, emit, bit01, if_false,
    List.append_assoc, List.singleton_append, List.cons_append, List.nil_append]
  by_cases hb : (pin_word s.mem i).testBit 0 = true
  · rw [if_pos (h.2 hb), if_pos hb]
  · rw [if_neg (fun hc => hb (h.1 hc)), if_neg hb]

theorem gpio_read_int_status_valid (i v0 : Int) (s : Dev) (hi : 0 ≤ i ∧ i < 8) :
    gpio_read_int_status i v0 s =
      (0, bit01 ((pin_word s.mem i).testBit 8), { s with trace := s.trace ++
        [Event.acquire, Event.read (pin_off i), Event.release] }) := by
  have h : (pin_word s.mem i &&& GPIO_INT_STATUS_BIT ≠ 0) ↔ (pin_word s.mem i).testBit 8 = true :=
    land_bit_ne_zero _ 8
  simp only [gpio_read_int_status, valid_pin_guard i hi, gpio_read_reg_valid i _ hi,
    spin_lock_irqsave, spin_unlock_irqrestore, emit, bit01, if_false,
    List.append_assoc, List.singleton_append, List.cons_append, List.nil_append]
  by_cases hb : (pin_word s.mem i).testBit 8 = true
  · rw [if_pos (h.2 hb), if_pos hb]
  · rw [if_neg (fun hc => hb (h.1 hc)), if_neg hb]

theorem gpio_clear_int_status_idle (i : Int) (s : Dev) (hi : 0 ≤ i ∧ i < 8)
    (hst : (pin_word s.mem i).testBit 8 = false) :
    gpio_clear_int_status i s =
      (0, { s with trace := s.trace ++
        [Event.acquire, Event.read (pin_off i), Event.release] }) := by
  have h : pin_word s.mem i &&& GPIO_INT_STATUS_BIT = 0 := (land_bit_eq_zero _ 8).2 hst
  simp [gpio_clear_int_status, valid_pin_guard i hi, gpio_read_reg_valid i _ hi,
    spin_lock_irqsave, spin_unlock_irqrestore, emit, h]

theorem gpio_clear_int_status_pending (i : Int) (s : Dev) (hi : 0 ≤ i ∧ i < 8)
    (hst : (pin_word s.mem i).testBit 8 = true) :
    gpio_clear_int_status i s =
      (0, { mem := Function.update s.mem (pin_off i)
              (s.store (s.mem (pin_off i)) GPIO_INT_STATUS_BIT)
            store := s.store
            trace := s.trace ++ [Event.acquire, Event.read (pin_off i),
              Event.write (pin_off i) GPIO_INT_STATUS_BIT, Event.release] }) := by
  have h : pin_word s.mem i &&& GPIO_INT_STATUS_BIT ≠ 0 := (land_bit_ne_zero _ 8).2 hst
  simp [gpio_clear_int_status, valid_pin_guard i hi, gpio_read_reg_valid i _ hi,
    gpio_write_reg_valid i _ _ hi, spin_lock_irqsave, spin_unlock_irqrestore, emit, h]


/-! ## Projections of a trace -/

theorem reg_writes_append (l₁ l₂ : List Event) :
    reg_writes (l₁ ++ l₂) = reg_writes l₁ ++ reg_writes l₂ := by
  induction l₁ with
  | nil => rfl
  | cons e t ih => cases e <;> simp [reg_writes, ih]

theorem irq_events_append (l₁ l₂ : List Event) :
    irq_events (l₁ ++ l₂) = irq_events l₁ ++ irq_events l₂ := by
  induction l₁ with
  | nil => rfl
  | cons e t ih => cases e <;> simp [irq_events, ih]

/-! ## Claims about the pin state engine -/

/-- C1: for a pin index below 0 or at least 8 and any value argument, each of
the six pin operations returns `-EINVAL` and hands back the device exactly as
it was (registers and trace: no lock event, no register read, no register
write); the two reading operations leave the caller's output value as it was. -/
theorem invalid_pin_rejected (p v : Int) (s : Dev) (hp : p < 0 ∨ p ≥ 8) :
    gpio_set_direction p v s = (-EINVAL, s) ∧
    gpio_read_pin p v s = (-EINVAL, v, s) ∧
    gpio_write_pin p v s = (-EINVAL, s) ∧
    gpio_set_interrupt p v s = (-EINVAL, s) ∧
    gpio_read_int_status p v s = (-EINVAL, v, s) ∧
    gpio_clear_int_status p s = (-EINVAL, s) := by
  have g := invalid_pin_guard p hp
  refine ⟨?_, ?_, ?_, ?_, ?_, ?_⟩
  · simp only [gpio_set_direction, if_pos g]
  · simp only [gpio_read_pin, if_pos g]
  · simp only [gpio_write_pin, if_pos g]
  · simp only [gpio_set_interrupt, if_pos g]
  · simp only [gpio_read_int_status, if_pos g]
  · simp only [gpio_clear_int_status, if_pos g]

/-- Witness of C1 at pin 8 with value 1 on the sample device. -/
theorem invalid_pin_rejected_witness :
    ((8 : Int) < 0 ∨ (8 : Int) ≥ 8) ∧
    (gpio_set_direction 8 1 sampleDev = (-EINVAL, sampleDev) ∧
     gpio_read_pin 8 1 sampleDev = (-EINVAL, 1, sampleDev) ∧
     gpio_write_pin 8 1 sampleDev = (-EINVAL, sampleDev) ∧
     gpio_set_interrupt 8 1 sampleDev = (-EINVAL, sampleDev) ∧
     gpio_read_int_status 8 1 sampleDev = (-EINVAL, 1, sampleDev) ∧
     gpio_clear_int_status 8 sampleDev = (-EINVAL, sampleDev)) :=
  ⟨by decide, invalid_pin_rejected 8 1 sampleDev (by decide)⟩

/-- C2: on a valid pin whose direction bit (bit 1) is 0, `gpio_write_pin`
returns `-EPERM`; the only events are the lock acquire, one register read of
that pin and the lock release, so nothing is written and the registers are as
they were. -/
theorem write_input_pin_denied (i v : Int) (s : Dev) (hi : 0 ≤ i ∧ i < 8)
    (hdir : (pin_word s.mem i).testBit 1 = false) :
    (gpio_write_pin i v s).1 = -EPERM ∧
    (gpio_write_pin i v s).2.mem = s.mem ∧
    (gpio_write_pin i v s).2.store = s.store ∧
    (gpio_write_pin i v s).2.trace =
      s.trace ++ [Event.acquire, Event.read (pin_off i), Event.release] ∧
    reg_writes (gpio_write_pin i v s).2.trace = reg_writes s.trace := by
  rw [gpio_write_pin_input i v s hi hdir]
  refine ⟨rfl, rfl, rfl, rfl, ?_⟩
  simp [reg_writes_append, reg_writes]

/-- Witness of C2: pin 2 of the sample device is an input. -/
theorem write_input_pin_denied_witness :
    ((0 : Int) ≤ 2 ∧ (2 : Int) < 8) ∧ (pin_word sampleDev.mem 2).testBit 1 = false ∧
    (gpio_write_pin 2 1 sampleDev).1 = -EPERM ∧
    (gpio_write_pin 2 1 sampleDev).2.mem = sampleDev.mem ∧
    (gpio_write_pin 2 1 sampleDev).2.store = sampleDev.store ∧
    (gpio_write_pin 2 1 sampleDev).2.trace =
      sampleDev.trace ++ [Event.acquire, Event.read (pin_off 2), Event.release] ∧
    reg_writes (gpio_write_pin 2 1 sampleDev).2.trace = reg_writes sampleDev.trace :=
  ⟨by decide, by decide, write_input_pin_denied 2 1 sampleDev (by decide) (by decide)⟩


theorem pin_word_update_same (m : Nat → Nat) (i : Int) (x : Nat) :
    pin_word (Function.update m (pin_off i) x) i = x % 2 ^ 32 := by
  simp only [pin_word, Function.update_same]

/-- C3: on a valid pin whose direction bit is 1, with a register that reads
back bit 0 as last stored, `gpio_write_pin i v` for `v` in {0, 1} returns 0 and
a following `gpio_read_pin i` returns 0 and stores exactly `v` in its output
value, whatever that value held before. -/
theorem write_then_read_pin (i v v0 : Int) (s : Dev) (hi : 0 ≤ i ∧ i < 8)
    (hdir : (pin_word s.mem i).testBit 1 = true) (hv : v = 0 ∨ v = 1)
    (hrb : ReadsBack s.store 0) :
    (gpio_write_pin i v s).1 = 0 ∧
    (gpio_read_pin i v0 (gpio_write_pin i v s).2).1 = 0 ∧
    (gpio_read_pin i v0 (gpio_write_pin i v s).2).2.1 = v := by
  rw [gpio_read_pin_valid i v0 _ hi, gpio_write_pin_output i v s hi hdir]
  refine ⟨rfl, rfl, ?_⟩
  show bit01 ((pin_word (Function.update s.mem (pin_off i) _) i).testBit 0) = v
  rw [pin_word_update_same, testBit_word _ 0 (by decide), hrb]
  rcases hv with h | h
  · subst h
    have e := testBit_clear_bit (pin_word s.mem i) 0 0 (word_lt _) (by decide)
    simp only [GPIO_DATA_BIT, ne_eq, not_true_eq_false, if_false, e]
    simp [bit01]
  · subst h
    have e := testBit_set_bit (pin_word s.mem i) 0 0
    simp only [GPIO_DATA_BIT, ne_eq, one_ne_zero, not_false_eq_true, if_true, e]
    simp [bit01]

/-- Witness of C3: pin 3 of the sample device is an output. -/
theorem write_then_read_pin_witness :
    ((0 : Int) ≤ 3 ∧ (3 : Int) < 8) ∧ (pin_word sampleDev.mem 3).testBit 1 = true ∧
    ((1 : Int) = 0 ∨ (1 : Int) = 1) ∧ ReadsBack sampleDev.store 0 ∧
    (gpio_write_pin 3 1 sampleDev).1 = 0 ∧
    (gpio_read_pin 3 7 (gpio_write_pin 3 1 sampleDev).2).1 = 0 ∧
    (gpio_read_pin 3 7 (gpio_write_pin 3 1 sampleDev).2).2.1 = 1 :=
  ⟨by decide, by decide, by decide, w1tcStore_readsBack 0 (by decide) (by decide),
    write_then_read_pin 3 1 7 sampleDev (by decide) (by decide) (by decide)
      (w1tcStore_readsBack 0 (by decide) (by decide))⟩

/-- C4: on a valid pin, with a register that reads back bit 1 as last stored,
`gpio_set_direction i d` for `d` in {0, 1} returns 0 and afterwards the
direction bit (bit 1) of the pin's register word equals `d`. -/
theorem set_direction_roundtrip (i d : Int) (s : Dev) (hi : 0 ≤ i ∧ i < 8)
    (hd : d = 0 ∨ d = 1) (hrb : ReadsBack s.store 1) :
    (gpio_set_direction i d s).1 = 0 ∧
    bit01 ((pin_word (gpio_set_direction i d s).2.mem i).testBit 1) = d := by
  rw [gpio_set_direction_valid i d s hi]
  refine ⟨rfl, ?_⟩
  show bit01 ((pin_word (Function.update s.mem (pin_off i) _) i).testBit 1) = d
  rw [pin_word_update_same, testBit_word _ 1 (by decide), hrb]
  rcases hd with h | h
  · subst h
    have e := testBit_clear_bit (pin_word s.mem i) 1 1 (word_lt _) (by decide)
    simp only [GPIO_DIR_BIT, ne_eq, not_true_eq_false, if_false, e]
    simp [bit01]
  · subst h
    have e := testBit_set_bit (pin_word s.mem i) 1 1
    simp only [GPIO_DIR_BIT, ne_eq, one_ne_zero, not_false_eq_true, if_true, e]
    simp [bit01]

/-- Witness of C4: pin 3 of the sample device is switched from output to input. -/
theorem set_direction_roundtrip_witness :
    ((0 : Int) ≤ 3 ∧ (3 : Int) < 8) ∧ ((0 : Int) = 0 ∨ (0 : Int) = 1) ∧
    ReadsBack sampleDev.store 1 ∧
    (gpio_set_direction 3 0 sampleDev).1 = 0 ∧
    bit01 ((pin_word (gpio_set_direction 3 0 sampleDev).2.mem 3).testBit 1) = 0 :=
  ⟨by decide, by decide, w1tcStore_readsBack 1 (by decide) (by decide),
    set_direction_roundtrip 3 0 sampleDev (by decide) (by decide)
      (w1tcStore_readsBack 1 (by decide) (by decide))⟩


/-- C5: on a valid pin whose interrupt-status bit (bit 8) is 0,
`gpio_clear_int_status` returns 0 and its only events are the lock acquire, one
register read and the lock release, so it stores nothing and a second call
leaves the registers exactly as the first did; when the bit is 1 its events
are the lock acquire, one read, one store of the word 0x100 to that pin's
register and the lock release, so that store is its only register write. -/
theorem clear_int_status_writes (i : Int) (s : Dev) (hi : 0 ≤ i ∧ i < 8) :
    ((pin_word s.mem i).testBit 8 = false →
      (gpio_clear_int_status i s).1 = 0 ∧
      (gpio_clear_int_status i s).2.trace =
        s.trace ++ [Event.acquire, Event.read (pin_off i), Event.release] ∧
      reg_writes (gpio_clear_int_status i s).2.trace = reg_writes s.trace ∧
      (gpio_clear_int_status i s).2.mem = s.mem ∧
      (gpio_clear_int_status i (gpio_clear_int_status i s).2).1 = 0 ∧
      (gpio_clear_int_status i (gpio_clear_int_status i s).2).2.mem =
        (gpio_clear_int_status i s).2.mem ∧
      (gpio_clear_int_status i (gpio_clear_int_status i s).2).2.store =
        (gpio_clear_int_status i s).2.store) ∧
    ((pin_word s.mem i).testBit 8 = true →
      (gpio_clear_int_status i s).1 = 0 ∧
      (gpio_clear_int_status i s).2.trace =
        s.trace ++ [Event.acquire, Event.read (pin_off i),
          Event.write (pin_off i) 0x100, Event.release] ∧
      reg_writes (gpio_clear_int_status i s).2.trace =
        reg_writes s.trace ++ [(pin_off i, 0x100)]) := by
  constructor
  · intro h
    have h2 : (pin_word (gpio_clear_int_status i s).2.mem i).testBit 8 = false := by
      rw [gpio_clear_int_status_idle i s hi h]
      exact h
    rw [gpio_clear_int_status_idle i _ hi h2, gpio_clear_int_status_idle i s hi h]
    refine ⟨rfl, rfl, ?_, rfl, rfl, rfl, rfl⟩
    simp [reg_writes_append, reg_writes]
  · intro h
    rw [gpio_clear_int_status_pending i s hi h]
    refine ⟨rfl, rfl, ?_⟩
    simp [reg_writes_append, reg_writes, GPIO_INT_STATUS_BIT]

/-- Witness of C5: pin 2 of the sample device, whose interrupt is pending. -/
theorem clear_int_status_writes_witness :
    ((0 : Int) ≤ 2 ∧ (2 : Int) < 8) ∧ (pin_word sampleDev.mem 2).testBit 8 = true ∧
    ((pin_word sampleDev.mem 2).testBit 8 = false →
      (gpio_clear_int_status 2 sampleDev).1 = 0 ∧
      (gpio_clear_int_status 2 sampleDev).2.trace =
        sampleDev.trace ++ [Event.acquire, Event.read (pin_off 2), Event.release] ∧
      reg_writes (gpio_clear_int_status 2 sampleDev).2.trace = reg_writes sampleDev.trace ∧
      (gpio_clear_int_status 2 sampleDev).2.mem = sampleDev.mem ∧
      (gpio_clear_int_status 2 (gpio_clear_int_status 2 sampleDev).2).1 = 0 ∧
      (gpio_clear_int_status 2 (gpio_clear_int_status 2 sampleDev).2).2.mem =
        (gpio_clear_int_status 2 sampleDev).2.mem ∧
      (gpio_clear_int_status 2 (gpio_clear_int_status 2 sampleDev).2).2.store =
        (gpio_clear_int_status 2 sampleDev).2.store) ∧
    ((pin_word sampleDev.mem 2).testBit 8 = true →
      (gpio_clear_int_status 2 sampleDev).1 = 0 ∧
      (gpio_clear_int_status 2 sampleDev).2.trace =
        sampleDev.trace ++ [Event.acquire, Event.read (pin_off 2),
          Event.write (pin_off 2) 0x100, Event.release] ∧
      reg_writes (gpio_clear_int_status 2 sampleDev).2.trace =
        reg_writes sampleDev.trace ++ [(pin_off 2, 0x100)]) :=
  ⟨by decide, by decide, clear_int_status_writes 2 sampleDev (by decide)⟩

/-- C9: on a valid pin, each successful `gpio_set_direction`, `gpio_write_pin`
and `gpio_set_interrupt` produces exactly the events lock acquire, one read of
that pin's register, one store to that pin's register, lock release; the word
stored agrees with the word read in every bit except possibly the target bit
(bit 1, bit 0 and bit 9 respectively), and every other register of the window
is left as it was. -/
theorem read_modify_write_frame (i a : Int) (s : Dev) (hi : 0 ≤ i ∧ i < 8) :
    (∃ w, gpio_set_direction i a s =
        (0, { mem := Function.update s.mem (pin_off i) (s.store (s.mem (pin_off i)) w)
              store := s.store
              trace := s.trace ++ [Event.acquire, Event.read (pin_off i),
                Event.write (pin_off i) w, Event.release] }) ∧
      ∀ k, k ≠ 1 → w.testBit k = (pin_word s.mem i).testBit k) ∧
    ((gpio_write_pin i a s).1 = 0 →
      ∃ w, gpio_write_pin i a s =
        (0, { mem := Function.update s.mem (pin_off i) (s.store (s.mem (pin_off i)) w)
              store := s.store
              trace := s.trace ++ [Event.acquire, Event.read (pin_off i),
                Event.write (pin_off i) w, Event.release] }) ∧
      ∀ k, k ≠ 0 → w.testBit k = (pin_word s.mem i).testBit k) ∧
    (∃ w, gpio_set_interrupt i a s =
        (0, { mem := Function.update s.mem (pin_off i) (s.store (s.mem (pin_off i)) w)
              store := s.store
              trace := s.trace ++ [Event.acquire, Event.read (pin_off i),
                Event.write (pin_off i) w, Event.release] }) ∧
      ∀ k, k ≠ 9 → w.testBit k = (pin_word s.mem i).testBit k) := by
  have key : ∀ b : Nat, b < 32 → ∀ k, k ≠ b →
      (if a ≠ 0 then pin_word s.mem i ||| (1 <<< b)
        else pin_word s.mem i &&& not32 (1 <<< b)).testBit k =
      (pin_word s.mem i).testBit k := by
    intro b hb k hk
    have hk' : ¬ (b = k) := fun h => hk h.symm
    split
    · rw [testBit_set_bit]
      simp [hk']
    · rw [testBit_clear_bit (pin_word s.mem i) b k (word_lt _) hb]
      simp [hk']
  refine ⟨⟨_, gpio_set_direction_valid i a s hi, key 1 (by decide)⟩, ?_,
    ⟨_, gpio_set_interrupt_valid i a s hi, key 9 (by decide)⟩⟩
  intro hret
  by_cases hdir : (pin_word s.mem i).testBit 1 = true
  · exact ⟨_, gpio_write_pin_output i a s hi hdir, key 0 (by decide)⟩
  · rw [gpio_write_pin_input i a s hi (by simpa using hdir)] at hret
    have hc : (-EPERM : Int) = 0 := hret
    exact absurd hc (by decide)

/-- Witness of C9: the three operations on pin 3 of the sample device. -/
theorem read_modify_write_frame_witness :
    ((0 : Int) ≤ 3 ∧ (3 : Int) < 8) ∧
    (∃ w, gpio_set_direction 3 1 sampleDev =
        (0, { mem := Function.update sampleDev.mem (pin_off 3)
                (sampleDev.store (sampleDev.mem (pin_off 3)) w)
              store := sampleDev.store
              trace := sampleDev.trace ++ [Event.acquire, Event.read (pin_off 3),
                Event.write (pin_off 3) w, Event.release] }) ∧
      ∀ k, k ≠ 1 → w.testBit k = (pin_word sampleDev.mem 3).testBit k) ∧
    ((gpio_write_pin 3 1 sampleDev).1 = 0 →
      ∃ w, gpio_write_pin 3 1 sampleDev =
        (0, { mem := Function.update sampleDev.mem (pin_off 3)
                (sampleDev.store (sampleDev.mem (pin_off 3)) w)
              store := sampleDev.store
              trace := sampleDev.trace ++ [Event.acquire, Event.read (pin_off 3),
                Event.write (pin_off 3) w, Event.release] }) ∧
      ∀ k, k ≠ 0 → w.testBit k = (pin_word sampleDev.mem 3).testBit k) ∧
    (∃ w, gpio_set_interrupt 3 1 sampleDev =
        (0, { mem := Function.update sampleDev.mem (pin_off 3)
                (sampleDev.store (sampleDev.mem (pin_off 3)) w)
              store := sampleDev.store
              trace := sampleDev.trace ++ [Event.acquire, Event.read (pin_off 3),
                Event.write (pin_off 3) w, Event.release] }) ∧
      ∀ k, k ≠ 9 → w.testBit k = (pin_word sampleDev.mem 3).testBit k) :=
  ⟨by decide, read_modify_write_frame 3 1 sampleDev (by decide)⟩


/-! ## The interrupt dispatcher -/

theorem pin_off_injective (a b : Nat) (ha : a < 8) (hb : b < 8)
    (h : pin_off (a : Int) = pin_off (b : Int)) : a = b := by
  interval_cases a <;> interval_cases b <;> first | rfl | (exact absurd h (by decide))

theorem nat_pin_valid (n : Nat) (hn : n < 8) : 0 ≤ (n : Int) ∧ (n : Int) < 8 := by
  omega

theorem irq_body_idle (n : Nat) (hn : n < 8) (h : Int) (s : Dev)
    (hst : (pin_word s.mem (n : Int)).testBit 8 = false) :
    irq_body (n : Int) (h, s) =
      (h, { s with trace := s.trace ++ [Event.read (pin_off (n : Int))] }) := by
  have hz : pin_word s.mem (n : Int) &&& GPIO_INT_STATUS_BIT = 0 := (land_bit_eq_zero _ 8).2 hst
  simp [irq_body, gpio_read_reg_valid _ _ (nat_pin_valid n hn), emit, hz]

theorem irq_body_pending (n : Nat) (hn : n < 8) (h : Int) (s : Dev)
    (hst : (pin_word s.mem (n : Int)).testBit 8 = true) :
    irq_body (n : Int) (h, s) =
      (1, { mem := Function.update s.mem (pin_off (n : Int))
              (s.store (s.mem (pin_off (n : Int))) GPIO_INT_STATUS_BIT)
            store := s.store
            trace := s.trace ++ [Event.read (pin_off (n : Int)),
              Event.log ((n : Int) + 1) (bit01 ((pin_word s.mem (n : Int)).testBit 0)),
              Event.acquire, Event.read (pin_off (n : Int)),
              Event.write (pin_off (n : Int)) GPIO_INT_STATUS_BIT, Event.release] }) := by
  have hz : pin_word s.mem (n : Int) &&& GPIO_INT_STATUS_BIT ≠ 0 := (land_bit_ne_zero _ 8).2 hst
  have hd : (pin_word s.mem (n : Int) &&& GPIO_DATA_BIT ≠ 0) ↔
      (pin_word s.mem (n : Int)).testBit 0 = true := land_bit_ne_zero _ 0
  have hv : (if pin_word s.mem (n : Int) &&& GPIO_DATA_BIT ≠ 0 then (1 : Int) else 0) =
      bit01 ((pin_word s.mem (n : Int)).testBit 0) := by
    unfold bit01
    by_cases hb : (pin_word s.mem (n : Int)).testBit 0 = true
    · rw [if_pos (hd.2 hb), if_pos hb]
    · rw [if_neg (fun hc => hb (hd.1 hc)), if_neg hb]
  have hst2 : (pin_word (pr_info ((n : Int) + 1) (bit01 ((pin_word s.mem (n : Int)).testBit 0))
      (emit (Event.read (pin_off (n : Int))) s)).mem (n : Int)).testBit 8 = true := hst
  simp only [irq_body, gpio_read_reg_valid _ _ (nat_pin_valid n hn), if_pos hz, hv,
    gpio_clear_int_status_pending _ _ (nat_pin_valid n hn) hst2]
  simp [pr_info, emit]


theorem irq_body_step (a : Nat) (ha : a < 8) (h : Int) (s : Dev) :
    (irq_body (a : Int) (h, s)).2.store = s.store ∧
    (∀ off, off ≠ pin_off (a : Int) → (irq_body (a : Int) (h, s)).2.mem off = s.mem off) ∧
    (irq_body (a : Int) (h, s)).2.mem (pin_off (a : Int)) =
      (if (pin_word s.mem (a : Int)).testBit 8 = true
        then s.store (s.mem (pin_off (a : Int))) 0x100 else s.mem (pin_off (a : Int))) ∧
    irq_events (irq_body (a : Int) (h, s)).2.trace = irq_events s.trace ++
      (if (pin_word s.mem (a : Int)).testBit 8 = true
        then [((a : Int) + 1, bit01 ((pin_word s.mem (a : Int)).testBit 0))] else []) ∧
    reg_writes (irq_body (a : Int) (h, s)).2.trace = reg_writes s.trace ++
      (if (pin_word s.mem (a : Int)).testBit 8 = true
        then [(pin_off (a : Int), 0x100)] else []) ∧
    (irq_body (a : Int) (h, s)).1 =
      (if (pin_word s.mem (a : Int)).testBit 8 = true then 1 else h) := by
  by_cases hp : (pin_word s.mem (a : Int)).testBit 8 = true
  · rw [irq_body_pending a ha h s hp, if_pos hp, if_pos hp, if_pos hp, if_pos hp]
    refine ⟨rfl, ?_, ?_, ?_, ?_, rfl⟩
    · intro off hoff
      exact Function.update_noteq hoff _ _
    · simp [GPIO_INT_STATUS_BIT]
    · simp [irq_events_append, irq_events]
    · simp [reg_writes_append, reg_writes, GPIO_INT_STATUS_BIT]
  · rw [irq_body_idle a ha h s (by simpa using hp), if_neg hp, if_neg hp, if_neg hp, if_neg hp]
    refine ⟨rfl, fun _ _ => rfl, rfl, ?_, ?_, rfl⟩
    · simp [irq_events_append, irq_events]
    · simp [reg_writes_append, reg_writes]


theorem irq_scan_spec (l : List Nat) : ∀ (h : Int) (s : Dev), (∀ n ∈ l, n < 8) → l.Nodup →
    (l.foldl (fun acc n => irq_body ((n : Nat) : Int) acc) (h, s)).2.store = s.store ∧
    (∀ off, (∀ n ∈ l, pin_off ((n : Nat) : Int) ≠ off) →
      (l.foldl (fun acc n => irq_body ((n : Nat) : Int) acc) (h, s)).2.mem off = s.mem off) ∧
    (∀ n ∈ l, (l.foldl (fun acc n => irq_body ((n : Nat) : Int) acc) (h, s)).2.mem
        (pin_off ((n : Nat) : Int)) =
      (if (pin_word s.mem (n : Int)).testBit 8 = true
        then s.store (s.mem (pin_off (n : Int))) 0x100 else s.mem (pin_off (n : Int)))) ∧
    irq_events (l.foldl (fun acc n => irq_body ((n : Nat) : Int) acc) (h, s)).2.trace =
      irq_events s.trace ++ l.filterMap (fun (n : Nat) =>
        if (pin_word s.mem (n : Int)).testBit 8 = true
          then some ((n : Int) + 1, bit01 ((pin_word s.mem (n : Int)).testBit 0)) else none) ∧
    reg_writes (l.foldl (fun acc n => irq_body ((n : Nat) : Int) acc) (h, s)).2.trace =
      reg_writes s.trace ++ l.filterMap (fun (n : Nat) =>
        if (pin_word s.mem (n : Int)).testBit 8 = true
          then some (pin_off (n : Int), 0x100) else none) ∧
    (l.foldl (fun acc n => irq_body ((n : Nat) : Int) acc) (h, s)).1 =
      (if ∃ n ∈ l, (pin_word s.mem ((n : Nat) : Int)).testBit 8 = true then 1 else h) := by
  induction l with
  | nil =>
    intro h s _ _
    simp
  | cons a t ih =>
    intro h s hl hnd
    obtain ⟨hat, hndt⟩ := List.nodup_cons.1 hnd
    have ha : a < 8 := hl a (List.mem_cons_self _ _)
    have ht : ∀ n ∈ t, n < 8 := fun n hn => hl n (List.mem_cons_of_mem _ hn)
    obtain ⟨b1, b2, b3, b4, b5, b6⟩ := irq_body_step a ha h s
    rw [List.foldl_cons]
    generalize irq_body (a : Int) (h, s) = r at b1 b2 b3 b4 b5 b6 ⊢
    obtain ⟨h1, s1⟩ := r
    simp only at b1 b2 b3 b4 b5 b6
    obtain ⟨c1, c2, c3, c4, c5, c6⟩ := ih h1 s1 ht hndt
    have hne : ∀ n ∈ t, pin_off ((n : Nat) : Int) ≠ pin_off (a : Int) := by
      intro n hn e
      have := pin_off_injective n a (ht n hn) ha e
      subst this
      exact hat hn
    have hmem : ∀ n ∈ t, s1.mem (pin_off ((n : Nat) : Int)) = s.mem (pin_off (n : Int)) :=
      fun n hn => b2 _ (hne n hn)
    have hw : ∀ n ∈ t, pin_word s1.mem ((n : Nat) : Int) = pin_word s.mem (n : Int) := by
      intro n hn
      unfold pin_word
      rw [hmem n hn]
    refine ⟨c1.trans b1, ?_, ?_, ?_, ?_, ?_⟩
    · intro off hoff
      rw [c2 off (fun n hn => hoff n (List.mem_cons_of_mem _ hn)),
        b2 off (Ne.symm (hoff a (List.mem_cons_self _ _)))]
    · intro n hn
      rcases List.mem_cons.1 hn with e | hn'
      · subst e
        rw [c2 _ (fun m hm => hne m hm), b3]
      · rw [c3 n hn', hw n hn', hmem n hn', b1]
    · have e : t.filterMap (fun (n : Nat) =>
          if (pin_word s1.mem ((n : Nat) : Int)).testBit 8 = true
            then some ((n : Int) + 1, bit01 ((pin_word s1.mem (n : Int)).testBit 0)) else none) =
          t.filterMap (fun (n : Nat) =>
          if (pin_word s.mem ((n : Nat) : Int)).testBit 8 = true
            then some ((n : Int) + 1, bit01 ((pin_word s.mem (n : Int)).testBit 0)) else none) :=
        List.filterMap_congr (fun n hn => by simp only [hw n hn])
      rw [c4, b4, e, List.append_assoc]
      by_cases hp : (pin_word s.mem (a : Int)).testBit 8 = true
      · simp [List.filterMap_cons, hp]
      · simp [List.filterMap_cons, hp]
    · have e : t.filterMap (fun (n : Nat) =>
          if (pin_word s1.mem ((n : Nat) : Int)).testBit 8 = true
            then some (pin_off (n : Int), 0x100) else none) =
          t.filterMap (fun (n : Nat) =>
          if (pin_word s.mem ((n : Nat) : Int)).testBit 8 = true
            then some (pin_off (n : Int), 0x100) else none) :=
        List.filterMap_congr (fun n hn => by simp only [hw n hn])
      rw [c5, b5, e, List.append_assoc]
      by_cases hp : (pin_word s.mem (a : Int)).testBit 8 = true
      · simp [List.filterMap_cons, hp]
      · simp [List.filterMap_cons, hp]
    · have hex : (∃ n ∈ t, (pin_word s1.mem ((n : Nat) : Int)).testBit 8 = true) ↔
          (∃ n ∈ t, (pin_word s.mem ((n : Nat) : Int)).testBit 8 = true) := by
        constructor
        · rintro ⟨n, hn, hp⟩
          exact ⟨n, hn, by rw [← hw n hn]; exact hp⟩
        · rintro ⟨n, hn, hp⟩
          exact ⟨n, hn, by rw [hw n hn]; exact hp⟩
      rw [c6, b6]
      by_cases hp : (pin_word s.mem (a : Int)).testBit 8 = true
      · have hx : ∃ n ∈ a :: t, (pin_word s.mem ((n : Nat) : Int)).testBit 8 = true :=
          ⟨a, List.mem_cons_self _ _, hp⟩
        rw [if_pos hp, if_pos hx]
        split <;> rfl
      · rw [if_neg hp]
        by_cases hx : ∃ n ∈ t, (pin_word s.mem ((n : Nat) : Int)).testBit 8 = true
        · have hx' : ∃ n ∈ a :: t, (pin_word s.mem ((n : Nat) : Int)).testBit 8 = true := by
            obtain ⟨n, hn, hq⟩ := hx
            exact ⟨n, List.mem_cons_of_mem _ hn, hq⟩
          rw [if_pos (hex.2 hx), if_pos hx']
        · have hx' : ¬ ∃ n ∈ a :: t, (pin_word s.mem ((n : Nat) : Int)).testBit 8 = true := by
            rintro ⟨n, hn, hq⟩
            rcases List.mem_cons.1 hn with e | hn'
            · subst e
              exact hp hq
            · exact hx ⟨n, hn', hq⟩
          rw [if_neg (fun hc => hx (hex.1 hc)), if_neg hx']


theorem range_pins_lt : ∀ n ∈ List.range NUM_GPIOS, n < 8 := by
  intro n hn
  exact List.mem_range.1 hn

theorem irq_handler_dev (s : Dev) :
    (gpio_irq_handler s).2 =
      ((List.range NUM_GPIOS).foldl (fun acc n => irq_body ((n : Nat) : Int) acc) (0, s)).2 :=
  rfl

theorem irq_handler_handled (s : Dev) :
    (gpio_irq_handler s).1 =
      (if ∃ n ∈ List.range NUM_GPIOS, (pin_word s.mem ((n : Nat) : Int)).testBit 8 = true
        then IRQ_HANDLED else IRQ_NONE) := by
  have h6 := (irq_scan_spec (List.range NUM_GPIOS) 0 s range_pins_lt
    (List.nodup_range _)).2.2.2.2.2
  show (if ((List.range NUM_GPIOS).foldl (fun acc n => irq_body ((n : Nat) : Int) acc)
      (0, s)).1 ≠ 0 then IRQ_HANDLED else IRQ_NONE) = _
  rw [h6]
  by_cases hx : ∃ n ∈ List.range NUM_GPIOS, (pin_word s.mem ((n : Nat) : Int)).testBit 8 = true
  · rw [if_pos hx, if_pos hx]
    simp
  · rw [if_neg hx, if_neg hx]
    simp

theorem pending_range_iff (s : Dev) :
    (∃ n ∈ List.range NUM_GPIOS, (pin_word s.mem ((n : Nat) : Int)).testBit 8 = true) ↔
      ∃ n, n < 8 ∧ (pin_word s.mem ((n : Nat) : Int)).testBit 8 = true := by
  constructor
  · rintro ⟨n, hn, hp⟩
    exact ⟨n, List.mem_range.1 hn, hp⟩
  · rintro ⟨n, hn, hp⟩
    exact ⟨n, List.mem_range.2 hn, hp⟩

/-- C7: `gpio_irq_handler` returns `IRQ_HANDLED` exactly when at least one of
the 8 pins has its interrupt-status bit set (a pin's word at the moment it is
scanned is its word on entry, since the handler stores only to pins already
scanned), and `IRQ_NONE` exactly when none has; in the latter case the handler
makes no register store and the register window is as it was. -/
theorem irq_handler_result (s : Dev) :
    ((gpio_irq_handler s).1 = IRQ_HANDLED ↔
      ∃ n, n < 8 ∧ (pin_word s.mem ((n : Nat) : Int)).testBit 8 = true) ∧
    ((gpio_irq_handler s).1 = IRQ_NONE ↔
      ¬ ∃ n, n < 8 ∧ (pin_word s.mem ((n : Nat) : Int)).testBit 8 = true) ∧
    ((gpio_irq_handler s).1 = IRQ_NONE →
      reg_writes (gpio_irq_handler s).2.trace = reg_writes s.trace ∧
      (gpio_irq_handler s).2.mem = s.mem) := by
  have hr := irq_handler_handled s
  have hne : IRQ_HANDLED ≠ IRQ_NONE := by decide
  have hnone : (gpio_irq_handler s).1 = IRQ_NONE ↔
      ¬ ∃ n, n < 8 ∧ (pin_word s.mem ((n : Nat) : Int)).testBit 8 = true := by
    rw [hr, ← pending_range_iff]
    constructor
    · intro h hx
      rw [if_pos hx] at h
      exact hne h
    · intro hx
      rw [if_neg hx]
  refine ⟨?_, hnone, ?_⟩
  · rw [hr, ← pending_range_iff]
    constructor
    · intro h
      by_contra hx
      rw [if_neg hx] at h
      exact hne h.symm
    · intro hx
      rw [if_pos hx]
  · intro h
    have hx := hnone.1 h
    have hidle : ∀ n, n < 8 → ¬ (pin_word s.mem ((n : Nat) : Int)).testBit 8 = true :=
      fun n hn hp => hx ⟨n, hn, hp⟩
    obtain ⟨_, c2, c3, _, c5, _⟩ := irq_scan_spec (List.range NUM_GPIOS) 0 s range_pins_lt
      (List.nodup_range _)
    constructor
    · rw [irq_handler_dev, c5]
      have e : (List.range NUM_GPIOS).filterMap (fun (n : Nat) =>
          if (pin_word s.mem (n : Int)).testBit 8 = true
            then some (pin_off (n : Int), 0x100) else none) = [] := by
        rw [List.filterMap_eq_nil_iff]
        intro n hn
        rw [if_neg (hidle n (List.mem_range.1 hn))]
      rw [e, List.append_nil]
    · rw [irq_handler_dev]
      funext off
      by_cases ho : ∃ n ∈ List.range NUM_GPIOS, pin_off ((n : Nat) : Int) = off
      · obtain ⟨n, hn, e⟩ := ho
        subst e
        rw [c3 n hn, if_neg (hidle n (List.mem_range.1 hn))]
      · exact c2 off (fun n hn e => ho ⟨n, hn, e⟩)


/-- Witness of C7: on the idle device no pin is pending, the handler returns
`IRQ_NONE` and stores nothing. -/
theorem irq_handler_result_witness :
    (gpio_irq_handler idleDev).1 = IRQ_NONE ∧
    reg_writes (gpio_irq_handler idleDev).2.trace = reg_writes idleDev.trace ∧
    (gpio_irq_handler idleDev).2.mem = idleDev.mem :=
  ⟨by decide, (irq_handler_result idleDev).2.2 (by decide)⟩

/-- C6, as stated, fails: on the sample device only pin 2 is pending (data
bit 1), and the handler reports the single event (3, 1), the pin number
counted from 1, not (2, 1). -/
theorem irq_event_pin_number_counterexample :
    (∀ n, n < 8 → ((pin_word sampleDev.mem ((n : Nat) : Int)).testBit 8 = true ↔ n = 2)) ∧
    irq_events (gpio_irq_handler sampleDev).2.trace = [(3, 1)] ∧
    irq_events (gpio_irq_handler sampleDev).2.trace ≠
      [(2, bit01 ((pin_word sampleDev.mem 2).testBit 0))] := by
  decide

/-- C6 (amended): one invocation of `gpio_irq_handler` reports exactly one
event per pin whose interrupt-status bit is set, in ascending pin order and
none for other pins, each event being the pair (pin index + 1, data bit of
that pin's word); in particular when only pin 2 is pending it reports exactly
the one event (3, data bit).  Afterwards, when bit 8 is write-one-to-clear,
`gpio_read_int_status` returns 0 with status 0 for every pin that was pending. -/
theorem irq_handler_reports (s : Dev) :
    irq_events (gpio_irq_handler s).2.trace = irq_events s.trace ++ pending_events s ∧
    ((∀ n, n < 8 → ((pin_word s.mem ((n : Nat) : Int)).testBit 8 = true ↔ n = 2)) →
      irq_events (gpio_irq_handler s).2.trace =
        irq_events s.trace ++ [(3, bit01 ((pin_word s.mem 2).testBit 0))]) ∧
    (WriteOneToClear s.store 8 → ∀ i v0 : Int, 0 ≤ i ∧ i < 8 →
      (pin_word s.mem i).testBit 8 = true →
      (gpio_read_int_status i v0 (gpio_irq_handler s).2).1 = 0 ∧
      (gpio_read_int_status i v0 (gpio_irq_handler s).2).2.1 = 0) := by
  obtain ⟨_, _, c3, c4, _, _⟩ := irq_scan_spec (List.range NUM_GPIOS) 0 s range_pins_lt
    (List.nodup_range _)
  have hev : irq_events (gpio_irq_handler s).2.trace =
      irq_events s.trace ++ pending_events s := by
    rw [irq_handler_dev, c4]
    rfl
  refine ⟨hev, ?_, ?_⟩
  · intro honly
    rw [hev]
    congr 1
    have h0 := (honly 0 (by decide)).not.2 (by decide)
    have h1 := (honly 1 (by decide)).not.2 (by decide)
    have h2 := (honly 2 (by decide)).2 rfl
    have h3 := (honly 3 (by decide)).not.2 (by decide)
    have h4 := (honly 4 (by decide)).not.2 (by decide)
    have h5 := (honly 5 (by decide)).not.2 (by decide)
    have h6 := (honly 6 (by decide)).not.2 (by decide)
    have h7 := (honly 7 (by decide)).not.2 (by decide)
    have hr : List.range NUM_GPIOS = [0, 1, 2, 3, 4, 5, 6, 7] := by decide
    unfold pending_events
    rw [hr]
    simp only [Nat.cast_ofNat, Nat.cast_zero, Nat.cast_one] at h0 h1 h2 h3 h4 h5 h6 h7
    simp [List.filterMap_cons, h0, h1, h2, h3, h4, h5, h6, h7]
  · intro hw i v0 hi hp
    rw [gpio_read_int_status_valid i v0 _ hi]
    refine ⟨rfl, ?_⟩
    have hn : ((i.toNat : Nat) : Int) = i := Int.toNat_of_nonneg hi.1
    have hlt : i.toNat < 8 := by omega
    have hm := c3 i.toNat (List.mem_range.2 hlt)
    rw [hn, if_pos hp] at hm
    show bit01 ((pin_word (gpio_irq_handler s).2.mem i).testBit 8) = 0
    have hb : (pin_word (gpio_irq_handler s).2.mem i).testBit 8 = false := by
      rw [irq_handler_dev]
      unfold pin_word
      rw [hm, testBit_word _ 8 (by decide)]
      exact hw _ _ (by decide)
    rw [hb]
    rfl

/-- Witness of C6 (amended): the sample device, whose registers are the
write-one-to-clear model and whose pin 2 is pending. -/
theorem irq_handler_reports_witness :
    WriteOneToClear sampleDev.store 8 ∧ ((0 : Int) ≤ 2 ∧ (2 : Int) < 8) ∧
    (pin_word sampleDev.mem 2).testBit 8 = true ∧
    (gpio_read_int_status 2 7 (gpio_irq_handler sampleDev).2).1 = 0 ∧
    (gpio_read_int_status 2 7 (gpio_irq_handler sampleDev).2).2.1 = 0 :=
  ⟨w1tcStore_w1tc, by decide, by decide,
    (irq_handler_reports sampleDev).2.2 w1tcStore_w1tc 2 7 (by decide) (by decide)⟩

/-! ## The command interface -/

theorem read_pin_value_bit (p v : Int) (s : Dev) (h : (gpio_read_pin p v s).1 = 0) :
    (gpio_read_pin p v s).2.1 = 0 ∨ (gpio_read_pin p v s).2.1 = 1 := by
  by_cases hv : 0 ≤ p ∧ p < 8
  · rw [gpio_read_pin_valid p v s hv]
    cases (pin_word s.mem p).testBit 0
    · exact Or.inl rfl
    · exact Or.inr rfl
  · have g : p < 0 ∨ p ≥ (NUM_GPIOS : Int) := invalid_pin_guard p (by omega)
    simp only [gpio_read_pin, if_pos g] at h
    exact absurd h (by decide)

theorem read_int_status_value_bit (p v : Int) (s : Dev)
    (h : (gpio_read_int_status p v s).1 = 0) :
    (gpio_read_int_status p v s).2.1 = 0 ∨ (gpio_read_int_status p v s).2.1 = 1 := by
  by_cases hv : 0 ≤ p ∧ p < 8
  · rw [gpio_read_int_status_valid p v s hv]
    cases (pin_word s.mem p).testBit 8
    · exact Or.inl rfl
    · exact Or.inr rfl
  · have g : p < 0 ∨ p ≥ (NUM_GPIOS : Int) := invalid_pin_guard p (by omega)
    simp only [gpio_read_int_status, if_pos g] at h
    exact absurd h (by decide)

/-- C8, as stated, fails: for `GPIO_READ_PIN` on a record that is readable but
lies in a read-only page, `gpio_read_pin` returns 0 while `gpio_ioctl` returns
`-EFAULT`. -/
theorem ioctl_status_counterexample :
    readOnlyArg.readable = true ∧
    (gpio_read_pin readOnlyArg.data.gpio_num readOnlyArg.data.value sampleDev).1 = 0 ∧
    (gpio_ioctl genericCodes genericCodes.GPIO_READ_PIN readOnlyArg sampleDev).1 = -EFAULT ∧
    (gpio_ioctl genericCodes genericCodes.GPIO_READ_PIN readOnlyArg sampleDev).1 ≠
      (gpio_read_pin readOnlyArg.data.gpio_num readOnlyArg.data.value sampleDev).1 := by
  decide


/-- C8 (amended): with pairwise different command codes and a readable request
record `{gpio_num, value}`, `gpio_ioctl` returns for each of the six codes
exactly the status of the corresponding pin operation called with
`(gpio_num, value)`, leaving the record as it was, with one exception: for
`GPIO_READ_PIN` and `GPIO_READ_INT_STATUS`, when the operation returns 0, the
record is written back (`gpio_num` unchanged, `value` the bit read, 0 or 1) and
0 is returned if the record is writable, and `-EFAULT` is returned with the
record untouched if it is not.  Any other command code returns `-ENOTTY` and
leaves record and device (registers and trace) as they were. -/
theorem ioctl_status_passthrough (c : IoctlCodes) (cmd : Nat) (arg : UserBuf) (s : Dev)
    (hd : c.Distinct) (hr : arg.readable = true) :
    (cmd = c.GPIO_SET_DIRECTION → gpio_ioctl c cmd arg s =
      ((gpio_set_direction arg.data.gpio_num arg.data.value s).1, arg,
        (gpio_set_direction arg.data.gpio_num arg.data.value s).2)) ∧
    (cmd = c.GPIO_WRITE_PIN → gpio_ioctl c cmd arg s =
      ((gpio_write_pin arg.data.gpio_num arg.data.value s).1, arg,
        (gpio_write_pin arg.data.gpio_num arg.data.value s).2)) ∧
    (cmd = c.GPIO_SET_INTERRUPT → gpio_ioctl c cmd arg s =
      ((gpio_set_interrupt arg.data.gpio_num arg.data.value s).1, arg,
        (gpio_set_interrupt arg.data.gpio_num arg.data.value s).2)) ∧
    (cmd = c.GPIO_CLEAR_INT_STATUS → gpio_ioctl c cmd arg s =
      ((gpio_clear_int_status arg.data.gpio_num s).1, arg,
        (gpio_clear_int_status arg.data.gpio_num s).2)) ∧
    (cmd = c.GPIO_READ_PIN →
      ((gpio_read_pin arg.data.gpio_num arg.data.value s).1 ≠ 0 →
        gpio_ioctl c cmd arg s =
          ((gpio_read_pin arg.data.gpio_num arg.data.value s).1, arg,
            (gpio_read_pin arg.data.gpio_num arg.data.value s).2.2)) ∧
      ((gpio_read_pin arg.data.gpio_num arg.data.value s).1 = 0 → arg.writable = true →
        gpio_ioctl c cmd arg s =
          (0, { arg with data := { gpio_num := arg.data.gpio_num,
                                   value := (gpio_read_pin arg.data.gpio_num arg.data.value s).2.1 } },
            (gpio_read_pin arg.data.gpio_num arg.data.value s).2.2) ∧
        ((gpio_read_pin arg.data.gpio_num arg.data.value s).2.1 = 0 ∨
          (gpio_read_pin arg.data.gpio_num arg.data.value s).2.1 = 1)) ∧
      ((gpio_read_pin arg.data.gpio_num arg.data.value s).1 = 0 → arg.writable = false →
        gpio_ioctl c cmd arg s =
          (-EFAULT, arg, (gpio_read_pin arg.data.gpio_num arg.data.value s).2.2))) ∧
    (cmd = c.GPIO_READ_INT_STATUS →
      ((gpio_read_int_status arg.data.gpio_num arg.data.value s).1 ≠ 0 →
        gpio_ioctl c cmd arg s =
          ((gpio_read_int_status arg.data.gpio_num arg.data.value s).1, arg,
            (gpio_read_int_status arg.data.gpio_num arg.data.value s).2.2)) ∧
      ((gpio_read_int_status arg.data.gpio_num arg.data.value s).1 = 0 → arg.writable = true →
        gpio_ioctl c cmd arg s =
          (0, { arg with data := { gpio_num := arg.data.gpio_num,
                                   value := (gpio_read_int_status arg.data.gpio_num
                                     arg.data.value s).2.1 } },
            (gpio_read_int_status arg.data.gpio_num arg.data.value s).2.2) ∧
        ((gpio_read_int_status arg.data.gpio_num arg.data.value s).2.1 = 0 ∨
          (gpio_read_int_status arg.data.gpio_num arg.data.value s).2.1 = 1)) ∧
      ((gpio_read_int_status arg.data.gpio_num arg.data.value s).1 = 0 → arg.writable = false →
        gpio_ioctl c cmd arg s =
          (-EFAULT, arg, (gpio_read_int_status arg.data.gpio_num arg.data.value s).2.2))) ∧
    (cmd ∉ [c.GPIO_SET_DIRECTION, c.GPIO_READ_PIN, c.GPIO_WRITE_PIN, c.GPIO_SET_INTERRUPT,
        c.GPIO_READ_INT_STATUS, c.GPIO_CLEAR_INT_STATUS] →
      gpio_ioctl c cmd arg s = (-ENOTTY, arg, s)) := by
  simp only [IoctlCodes.Distinct, List.nodup_cons, List.mem_cons, List.mem_singleton,
    List.not_mem_nil, not_or, or_false, not_false_eq_true, List.nodup_nil, and_true] at hd
  obtain ⟨⟨h12, h13, h14, h15, h16⟩, ⟨h23, h24, h25, h26⟩, ⟨h34, h35, h36⟩, ⟨h45, h46⟩, h56⟩ := hd
  have hcopy : copy_from_user arg = some arg.data := by
    simp only [copy_from_user, hr, if_true]
  refine ⟨?_, ?_, ?_, ?_, ?_, ?_, ?_⟩
  · intro h
    subst h
    simp only [gpio_ioctl, if_true, hcopy]
  · intro h
    subst h
    simp only [gpio_ioctl, if_neg (Ne.symm h13), if_neg (Ne.symm h23), if_true, hcopy]
  · intro h
    subst h
    simp only [gpio_ioctl, if_neg (Ne.symm h14), if_neg (Ne.symm h24), if_neg (Ne.symm h34),
      if_true, hcopy]
  · intro h
    subst h
    simp only [gpio_ioctl, if_neg (Ne.symm h16), if_neg (Ne.symm h26), if_neg (Ne.symm h36),
      if_neg (Ne.symm h46), if_neg (Ne.symm h56), if_true, hcopy]
  · intro h
    subst h
    refine ⟨?_, ?_, ?_⟩
    · intro hne
      simp only [gpio_ioctl, if_neg (Ne.symm h12), if_true, hcopy, if_neg hne]
    · intro h0 hw
      refine ⟨?_, read_pin_value_bit _ _ _ h0⟩
      simp only [gpio_ioctl, if_neg (Ne.symm h12), if_true, hcopy, if_pos h0, copy_to_user, hw,
        h0]
    · intro h0 hw
      simp only [gpio_ioctl, if_neg (Ne.symm h12), if_true, hcopy, if_pos h0, copy_to_user, hw]
      rfl
  · intro h
    subst h
    refine ⟨?_, ?_, ?_⟩
    · intro hne
      simp only [gpio_ioctl, if_neg (Ne.symm h15), if_neg (Ne.symm h25), if_neg (Ne.symm h35),
        if_neg (Ne.symm h45), if_true, hcopy, if_neg hne]
    · intro h0 hw
      refine ⟨?_, read_int_status_value_bit _ _ _ h0⟩
      simp only [gpio_ioctl, if_neg (Ne.symm h15), if_neg (Ne.symm h25), if_neg (Ne.symm h35),
        if_neg (Ne.symm h45), if_true, hcopy, if_pos h0, copy_to_user, hw, h0]
    · intro h0 hw
      simp only [gpio_ioctl, if_neg (Ne.symm h15), if_neg (Ne.symm h25), if_neg (Ne.symm h35),
        if_neg (Ne.symm h45), if_true, hcopy, if_pos h0, copy_to_user, hw]
      rfl
  · intro h
    simp only [List.mem_cons, List.mem_singleton, List.not_mem_nil, not_or, or_false] at h
    obtain ⟨n1, n2, n3, n4, n5, n6⟩ := h
    simp only [gpio_ioctl, if_neg n1, if_neg n2, if_neg n3, if_neg n4, if_neg n5, if_neg n6]


/-- Witness of C8 (amended): `GPIO_READ_PIN` on pin 0 of the sample device with
a readable and writable record. -/
theorem ioctl_status_passthrough_witness :
    genericCodes.Distinct ∧ sampleArg.readable = true ∧
    gpio_ioctl genericCodes genericCodes.GPIO_READ_PIN sampleArg sampleDev =
      (0, { sampleArg with data :=
              { gpio_num := sampleArg.data.gpio_num,
                value := (gpio_read_pin sampleArg.data.gpio_num
                  sampleArg.data.value sampleDev).2.1 } },
        (gpio_read_pin sampleArg.data.gpio_num sampleArg.data.value sampleDev).2.2) :=
  ⟨by unfold IoctlCodes.Distinct; decide, rfl,
    (((ioctl_status_passthrough genericCodes genericCodes.GPIO_READ_PIN sampleArg sampleDev
      (by unfold IoctlCodes.Distinct; decide) rfl).2.2.2.2.1 rfl).2.1 (by decide) rfl).1⟩

/-! ## Lock discipline -/

/-- Started from an empty trace, each of the six pin operations keeps the lock
discipline: every register access lies between an acquire and its release. -/
theorem pin_operations_hold_lock (p v : Int) (s : Dev) (h : s.trace = []) :
    lock_ok false (gpio_set_direction p v s).2.trace = true ∧
    lock_ok false (gpio_read_pin p v s).2.2.trace = true ∧
    lock_ok false (gpio_write_pin p v s).2.trace = true ∧
    lock_ok false (gpio_set_interrupt p v s).2.trace = true ∧
    lock_ok false (gpio_read_int_status p v s).2.2.trace = true ∧
    lock_ok false (gpio_clear_int_status p s).2.trace = true := by
  by_cases hv : 0 ≤ p ∧ p < 8
  · refine ⟨?_, ?_, ?_, ?_, ?_, ?_⟩
    · rw [gpio_set_direction_valid p v s hv]
      simp [h, lock_ok]
    · rw [gpio_read_pin_valid p v s hv]
      simp [h, lock_ok]
    · by_cases hdir : (pin_word s.mem p).testBit 1 = true
      · rw [gpio_write_pin_output p v s hv hdir]
        simp [h, lock_ok]
      · rw [gpio_write_pin_input p v s hv (by simpa using hdir)]
        simp [h, lock_ok]
    · rw [gpio_set_interrupt_valid p v s hv]
      simp [h, lock_ok]
    · rw [gpio_read_int_status_valid p v s hv]
      simp [h, lock_ok]
    · by_cases hst : (pin_word s.mem p).testBit 8 = true
      · rw [gpio_clear_int_status_pending p s hv hst]
        simp [h, lock_ok]
      · rw [gpio_clear_int_status_idle p s hv (by simpa using hst)]
        simp [h, lock_ok]
  · have g : p < 0 ∨ p ≥ (NUM_GPIOS : Int) := invalid_pin_guard p (by omega)
    simp [gpio_set_direction, gpio_read_pin, gpio_write_pin, gpio_set_interrupt,
      gpio_read_int_status, gpio_clear_int_status, if_pos g, h, lock_ok]

/-- C10 at the failing input: on the idle device the handler's whole trace is
the eight scan reads, none of them preceded by a lock acquire, so the lock
discipline is broken at the very first register read. -/
theorem irq_scan_reads_unlocked :
    (gpio_irq_handler idleDev).2.trace =
      [Event.read 0x00, Event.read 0x04, Event.read 0x08, Event.read 0x0c,
       Event.read 0x10, Event.read 0x14, Event.read 0x1c, Event.read 0x20] ∧
    lock_ok false (gpio_irq_handler idleDev).2.trace = false ∧
    (gpio_irq_handler sampleDev).2.trace =
      [Event.read 0x00, Event.read 0x04, Event.read 0x08, Event.log 3 1,
       Event.acquire, Event.read 0x08, Event.write 0x08 0x100, Event.release,
       Event.read 0x0c, Event.read 0x10, Event.read 0x14, Event.read 0x1c, Event.read 0x20] ∧
    lock_ok false (gpio_irq_handler sampleDev).2.trace = false := by
  decide


theorem irq_body_trace (a : Nat) (ha : a < 8) (h : Int) (s : Dev) :
    ∃ es, (irq_body (a : Int) (h, s)).2.trace =
      s.trace ++ Event.read (pin_off (a : Int)) :: es := by
  by_cases hp : (pin_word s.mem (a : Int)).testBit 8 = true
  · rw [irq_body_pending a ha h s hp]
    exact ⟨_, rfl⟩
  · rw [irq_body_idle a ha h s (by simpa using hp)]
    exact ⟨_, rfl⟩

theorem irq_scan_trace (l : List Nat) : ∀ (h : Int) (s : Dev), (∀ n ∈ l, n < 8) →
    ∃ es, (l.foldl (fun acc n => irq_body ((n : Nat) : Int) acc) (h, s)).2.trace =
      s.trace ++ es := by
  induction l with
  | nil =>
    intro h s _
    exact ⟨[], by simp⟩
  | cons a t ih =>
    intro h s hl
    obtain ⟨es0, h0⟩ := irq_body_trace a (hl a (List.mem_cons_self _ _)) h s
    obtain ⟨es1, h1⟩ := ih (irq_body (a : Int) (h, s)).1 (irq_body (a : Int) (h, s)).2
      (fun n hn => hl n (List.mem_cons_of_mem _ hn))
    refine ⟨Event.read (pin_off (a : Int)) :: es0 ++ es1, ?_⟩
    rw [List.foldl_cons, h1, h0, List.append_assoc]

/-- From any device with an empty trace, the first event of `gpio_irq_handler`
is a register read of pin 0 made without the lock, so the handler never keeps
the lock discipline. -/
theorem irq_handler_breaks_lock (s : Dev) (h : s.trace = []) :
    (∃ es, (gpio_irq_handler s).2.trace = Event.read (pin_off 0) :: es) ∧
    lock_ok false (gpio_irq_handler s).2.trace = false := by
  have hr : List.range NUM_GPIOS = 0 :: [1, 2, 3, 4, 5, 6, 7] := by decide
  obtain ⟨es0, h0⟩ := irq_body_trace 0 (by decide) 0 s
  obtain ⟨es1, h1⟩ := irq_scan_trace [1, 2, 3, 4, 5, 6, 7]
    (irq_body ((0 : Nat) : Int) (0, s)).1 (irq_body ((0 : Nat) : Int) (0, s)).2
    (by decide)
  have ht : (gpio_irq_handler s).2.trace = Event.read (pin_off 0) :: (es0 ++ es1) := by
    rw [irq_handler_dev, hr, List.foldl_cons, h1, h0, h]
    rfl
  refine ⟨⟨_, ht⟩, ?_⟩
  rw [ht]
  rfl


/-! ## Sibling bits under the write-one-to-clear register -/

theorem rmw_word_testBit (w b k : Nat) (a : Int) (hw : w < 2 ^ 32) (hb : b < 32)
    (hk : k ≠ b) :
    (if a ≠ 0 then w ||| (1 <<< b) else w &&& not32 (1 <<< b)).testBit k = w.testBit k := by
  have hk2 : ¬ (b = k) := fun h => hk h.symm
  split
  · rw [testBit_set_bit]
    simp [hk2]
  · rw [testBit_clear_bit w b k hw hb]
    simp [hk2]

theorem pin_word_update_other (m : Nat → Nat) (i : Int) (off x : Nat)
    (h : pin_off i ≠ off) : pin_word (Function.update m off x) i = pin_word m i := by
  simp only [pin_word, Function.update_noteq h]

theorem pin_off_int_injective (i j : Int) (hi : 0 ≤ i ∧ i < 8) (hj : 0 ≤ j ∧ j < 8)
    (h : pin_off i = pin_off j) : i = j := by
  have ei : ((i.toNat : Nat) : Int) = i := Int.toNat_of_nonneg hi.1
  have ej : ((j.toNat : Nat) : Int) = j := Int.toNat_of_nonneg hj.1
  have hn : i.toNat = j.toNat :=
    pin_off_injective i.toNat j.toNat (by omega) (by omega) (by rw [ei, ej]; exact h)
  rw [← ei, ← ej, hn]

/-- After a store of the word `w` to pin `i`, bit `k` of the pin's word is what
the register makes of the store. -/
theorem pin_word_after_store (s : Dev) (i : Int) (w k : Nat) (hk : k < 32) :
    (pin_word (Function.update s.mem (pin_off i) (s.store (s.mem (pin_off i)) w)) i).testBit k =
      (s.store (s.mem (pin_off i)) w).testBit k := by
  rw [pin_word_update_same, testBit_word _ k hk]


/-- C11, as stated, fails: on a register of the described kind (bits 0, 1 and 9
stored as written, bit 8 write-one-to-clear) whose pin 5 holds 0x303,
`gpio_clear_int_status 5` returns 0 and afterwards the data bit, the direction
bit and the interrupt-enable bit of pin 5, all 1 before, are 0. -/
theorem clear_int_status_frame_counterexample :
    (ReadsBack outputPendingDev.store 0 ∧ ReadsBack outputPendingDev.store 1 ∧
      ReadsBack outputPendingDev.store 9 ∧ WriteOneToClear outputPendingDev.store 8) ∧
    (gpio_clear_int_status 5 outputPendingDev).1 = 0 ∧
    ((pin_word outputPendingDev.mem 5).testBit 0 = true ∧
      (pin_word (gpio_clear_int_status 5 outputPendingDev).2.mem 5).testBit 0 = false) ∧
    ((pin_word outputPendingDev.mem 5).testBit 1 = true ∧
      (pin_word (gpio_clear_int_status 5 outputPendingDev).2.mem 5).testBit 1 = false) ∧
    ((pin_word outputPendingDev.mem 5).testBit 9 = true ∧
      (pin_word (gpio_clear_int_status 5 outputPendingDev).2.mem 5).testBit 9 = false) :=
  ⟨⟨w1tcStore_readsBack 0 (by decide) (by decide), w1tcStore_readsBack 1 (by decide) (by decide),
      w1tcStore_readsBack 9 (by decide) (by decide), w1tcStore_w1tc⟩,
    by decide, by decide, by decide, by decide⟩

/-- C11 (amended): with a register that stores bits 0, 1 and 9 as written and
whose bit 8 is write-one-to-clear, on a valid pin `i`: when the
interrupt-status bit is clear, `gpio_clear_int_status i` leaves every register
as it was; when it is set, the call stores the word 0x100 to pin `i` (its only
store), after which the status bit is clear and the data, direction and
interrupt-enable bits of pin `i` are 0 (so each is unchanged only if it was 0
before), and no other register changes. -/
theorem clear_int_status_sibling_bits (i : Int) (s : Dev) (hi : 0 ≤ i ∧ i < 8)
    (h0 : ReadsBack s.store 0) (h1 : ReadsBack s.store 1) (h9 : ReadsBack s.store 9)
    (h8 : WriteOneToClear s.store 8) :
    (gpio_clear_int_status i s).1 = 0 ∧
    ((pin_word s.mem i).testBit 8 = false → (gpio_clear_int_status i s).2.mem = s.mem) ∧
    ((pin_word s.mem i).testBit 8 = true →
      (pin_word (gpio_clear_int_status i s).2.mem i).testBit 8 = false ∧
      (pin_word (gpio_clear_int_status i s).2.mem i).testBit 0 = false ∧
      (pin_word (gpio_clear_int_status i s).2.mem i).testBit 1 = false ∧
      (pin_word (gpio_clear_int_status i s).2.mem i).testBit 9 = false ∧
      (∀ off, off ≠ pin_off i → (gpio_clear_int_status i s).2.mem off = s.mem off) ∧
      reg_writes (gpio_clear_int_status i s).2.trace =
        reg_writes s.trace ++ [(pin_off i, 0x100)]) := by
  refine ⟨?_, ?_, ?_⟩
  · by_cases hp : (pin_word s.mem i).testBit 8 = true
    · rw [gpio_clear_int_status_pending i s hi hp]
    · rw [gpio_clear_int_status_idle i s hi (by simpa using hp)]
  · intro hp
    rw [gpio_clear_int_status_idle i s hi hp]
  · intro hp
    rw [gpio_clear_int_status_pending i s hi hp]
    refine ⟨?_, ?_, ?_, ?_, ?_, ?_⟩
    · show (pin_word (Function.update s.mem (pin_off i) _) i).testBit 8 = false
      rw [pin_word_after_store s i _ 8 (by decide)]
      exact h8 _ _ (by decide)
    · show (pin_word (Function.update s.mem (pin_off i) _) i).testBit 0 = false
      rw [pin_word_after_store s i _ 0 (by decide), h0]
      decide
    · show (pin_word (Function.update s.mem (pin_off i) _) i).testBit 1 = false
      rw [pin_word_after_store s i _ 1 (by decide), h1]
      decide
    · show (pin_word (Function.update s.mem (pin_off i) _) i).testBit 9 = false
      rw [pin_word_after_store s i _ 9 (by decide), h9]
      decide
    · intro off hoff
      exact Function.update_noteq hoff _ _
    · simp [reg_writes_append, reg_writes, GPIO_INT_STATUS_BIT]

/-- Witness of C11 (amended): pin 5 of the device whose pin 5 holds 0x303. -/
theorem clear_int_status_sibling_bits_witness :
    ((0 : Int) ≤ 5 ∧ (5 : Int) < 8) ∧
    (ReadsBack outputPendingDev.store 0 ∧ ReadsBack outputPendingDev.store 1 ∧
      ReadsBack outputPendingDev.store 9 ∧ WriteOneToClear outputPendingDev.store 8) ∧
    (gpio_clear_int_status 5 outputPendingDev).1 = 0 ∧
    ((pin_word outputPendingDev.mem 5).testBit 8 = false →
      (gpio_clear_int_status 5 outputPendingDev).2.mem = outputPendingDev.mem) ∧
    ((pin_word outputPendingDev.mem 5).testBit 8 = true →
      (pin_word (gpio_clear_int_status 5 outputPendingDev).2.mem 5).testBit 8 = false ∧
      (pin_word (gpio_clear_int_status 5 outputPendingDev).2.mem 5).testBit 0 = false ∧
      (pin_word (gpio_clear_int_status 5 outputPendingDev).2.mem 5).testBit 1 = false ∧
      (pin_word (gpio_clear_int_status 5 outputPendingDev).2.mem 5).testBit 9 = false ∧
      (∀ off, off ≠ pin_off 5 →
        (gpio_clear_int_status 5 outputPendingDev).2.mem off = outputPendingDev.mem off) ∧
      reg_writes (gpio_clear_int_status 5 outputPendingDev).2.trace =
        reg_writes outputPendingDev.trace ++ [(pin_off 5, 0x100)]) :=
  ⟨by decide,
    ⟨w1tcStore_readsBack 0 (by decide) (by decide), w1tcStore_readsBack 1 (by decide) (by decide),
      w1tcStore_readsBack 9 (by decide) (by decide), w1tcStore_w1tc⟩,
    clear_int_status_sibling_bits 5 outputPendingDev (by decide)
      (w1tcStore_readsBack 0 (by decide) (by decide))
      (w1tcStore_readsBack 1 (by decide) (by decide))
      (w1tcStore_readsBack 9 (by decide) (by decide)) w1tcStore_w1tc⟩


/-- C12 at the failing input: on the write-one-to-clear register whose pin 5
holds 0x303 (output, data 1, interrupt pending and enabled), each of
`gpio_set_direction`, `gpio_write_pin` and `gpio_set_interrupt` on pin 5
returns 0, its only store is the word 0x303 to pin 5, bit 8 still 1, and
afterwards the interrupt-status bit of pin 5 is clear: the pending interrupt
is lost although `gpio_clear_int_status` was not called. -/
theorem rmw_write_back_loses_pending :
    WriteOneToClear outputPendingDev.store 8 ∧
    (pin_word outputPendingDev.mem 5).testBit 8 = true ∧
    ((gpio_set_direction 5 1 outputPendingDev).1 = 0 ∧
      reg_writes (gpio_set_direction 5 1 outputPendingDev).2.trace = [(0x14, 0x303)] ∧
      (pin_word (gpio_set_direction 5 1 outputPendingDev).2.mem 5).testBit 8 = false) ∧
    ((gpio_write_pin 5 1 outputPendingDev).1 = 0 ∧
      reg_writes (gpio_write_pin 5 1 outputPendingDev).2.trace = [(0x14, 0x303)] ∧
      (pin_word (gpio_write_pin 5 1 outputPendingDev).2.mem 5).testBit 8 = false) ∧
    ((gpio_set_interrupt 5 1 outputPendingDev).1 = 0 ∧
      reg_writes (gpio_set_interrupt 5 1 outputPendingDev).2.trace = [(0x14, 0x303)] ∧
      (pin_word (gpio_set_interrupt 5 1 outputPendingDev).2.mem 5).testBit 8 = false) :=
  ⟨w1tcStore_w1tc, by decide, by decide, by decide, by decide⟩

/-- The same loss from every state: with bit 8 write-one-to-clear, on a valid
pin `i` whose interrupt-status bit is set, a successful `gpio_set_direction`,
`gpio_write_pin` or `gpio_set_interrupt` on pin `i` stores the status bit back
as 1 and so leaves it clear; the bit stays set across `gpio_read_pin` and
`gpio_read_int_status` on any pin and across every operation on another
valid pin. -/
theorem rmw_clears_pending (i a : Int) (s : Dev) (hi : 0 ≤ i ∧ i < 8)
    (hw : WriteOneToClear s.store 8) (hp : (pin_word s.mem i).testBit 8 = true) :
    ((gpio_set_direction i a s).1 = 0 ∧
      (pin_word (gpio_set_direction i a s).2.mem i).testBit 8 = false) ∧
    ((gpio_write_pin i a s).1 = 0 →
      (pin_word (gpio_write_pin i a s).2.mem i).testBit 8 = false) ∧
    ((gpio_set_interrupt i a s).1 = 0 ∧
      (pin_word (gpio_set_interrupt i a s).2.mem i).testBit 8 = false) ∧
    (∀ j v0 : Int, (gpio_read_pin j v0 s).2.2.mem = s.mem ∧
      (gpio_read_int_status j v0 s).2.2.mem = s.mem) ∧
    (∀ j : Int, 0 ≤ j ∧ j < 8 → j ≠ i →
      (pin_word (gpio_set_direction j a s).2.mem i).testBit 8 = true ∧
      (pin_word (gpio_write_pin j a s).2.mem i).testBit 8 = true ∧
      (pin_word (gpio_set_interrupt j a s).2.mem i).testBit 8 = true ∧
      (pin_word (gpio_clear_int_status j s).2.mem i).testBit 8 = true) := by
  have hset : ∀ b : Nat, b < 32 → b ≠ 8 →
      (s.store (s.mem (pin_off i))
        (if a ≠ 0 then pin_word s.mem i ||| (1 <<< b)
          else pin_word s.mem i &&& not32 (1 <<< b))).testBit 8 = false := by
    intro b hb hb8
    apply hw
    rw [rmw_word_testBit (pin_word s.mem i) b 8 a (word_lt _) hb (fun h => hb8 h.symm)]
    exact hp
  refine ⟨?_, ?_, ?_, ?_, ?_⟩
  · rw [gpio_set_direction_valid i a s hi]
    refine ⟨rfl, ?_⟩
    show (pin_word (Function.update s.mem (pin_off i) _) i).testBit 8 = false
    rw [pin_word_after_store s i _ 8 (by decide)]
    exact hset 1 (by decide) (by decide)
  · intro hret
    by_cases hdir : (pin_word s.mem i).testBit 1 = true
    · rw [gpio_write_pin_output i a s hi hdir]
      show (pin_word (Function.update s.mem (pin_off i) _) i).testBit 8 = false
      rw [pin_word_after_store s i _ 8 (by decide)]
      exact hset 0 (by decide) (by decide)
    · rw [gpio_write_pin_input i a s hi (by simpa using hdir)] at hret
      have hc : (-EPERM : Int) = 0 := hret
      exact absurd hc (by decide)
  · rw [gpio_set_interrupt_valid i a s hi]
    refine ⟨rfl, ?_⟩
    show (pin_word (Function.update s.mem (pin_off i) _) i).testBit 8 = false
    rw [pin_word_after_store s i _ 8 (by decide)]
    exact hset 9 (by decide) (by decide)
  · intro j v0
    by_cases hj : 0 ≤ j ∧ j < 8
    · rw [gpio_read_pin_valid j v0 s hj, gpio_read_int_status_valid j v0 s hj]
      exact ⟨rfl, rfl⟩
    · have g : j < 0 ∨ j ≥ (NUM_GPIOS : Int) := invalid_pin_guard j (by omega)
      simp only [gpio_read_pin, gpio_read_int_status, if_pos g, and_self]
  · intro j hj hji
    have hoff : pin_off i ≠ pin_off j :=
      fun h => hji (pin_off_int_injective i j hi hj h).symm
    refine ⟨?_, ?_, ?_, ?_⟩
    · rw [gpio_set_direction_valid j a s hj]
      show (pin_word (Function.update s.mem (pin_off j) _) i).testBit 8 = true
      rw [pin_word_update_other _ _ _ _ hoff]
      exact hp
    · by_cases hdir : (pin_word s.mem j).testBit 1 = true
      · rw [gpio_write_pin_output j a s hj hdir]
        show (pin_word (Function.update s.mem (pin_off j) _) i).testBit 8 = true
        rw [pin_word_update_other _ _ _ _ hoff]
        exact hp
      · rw [gpio_write_pin_input j a s hj (by simpa using hdir)]
        exact hp
    · rw [gpio_set_interrupt_valid j a s hj]
      show (pin_word (Function.update s.mem (pin_off j) _) i).testBit 8 = true
      rw [pin_word_update_other _ _ _ _ hoff]
      exact hp
    · by_cases hst : (pin_word s.mem j).testBit 8 = true
      · rw [gpio_clear_int_status_pending j s hj hst]
        show (pin_word (Function.update s.mem (pin_off j) _) i).testBit 8 = true
        rw [pin_word_update_other _ _ _ _ hoff]
        exact hp
      · rw [gpio_clear_int_status_idle j s hj (by simpa using hst)]
        exact hp

/-- The general statement applied to pin 5 of the device whose pin 5 holds
0x303. -/
theorem rmw_clears_pending_witness :
    ((0 : Int) ≤ 5 ∧ (5 : Int) < 8) ∧ WriteOneToClear outputPendingDev.store 8 ∧
    (pin_word outputPendingDev.mem 5).testBit 8 = true ∧
    ((gpio_set_direction 5 0 outputPendingDev).1 = 0 ∧
      (pin_word (gpio_set_direction 5 0 outputPendingDev).2.mem 5).testBit 8 = false) ∧
    ((gpio_write_pin 5 0 outputPendingDev).1 = 0 →
      (pin_word (gpio_write_pin 5 0 outputPendingDev).2.mem 5).testBit 8 = false) ∧
    ((gpio_set_interrupt 5 0 outputPendingDev).1 = 0 ∧
      (pin_word (gpio_set_interrupt 5 0 outputPendingDev).2.mem 5).testBit 8 = false) :=
  ⟨by decide, w1tcStore_w1tc, by decide,
    (rmw_clears_pending 5 0 outputPendingDev (by decide) w1tcStore_w1tc (by decide)).1,
    (rmw_clears_pending 5 0 outputPendingDev (by decide) w1tcStore_w1tc (by decide)).2.1,
    (rmw_clears_pending 5 0 outputPendingDev (by decide) w1tcStore_w1tc (by decide)).2.2.1⟩

end GpioDriver
